import Mathlib

/-!
Select prompt (`select.go`): shallow embedding and verified properties

The development embeds `Select.OnChange` and `Select.Prompt` of `select.go`
as pure functions over an explicit prompt value, an explicit script of
key-read results and an explicit event log.

Conventions of the embedding

* A Go `rune` is an `Int`; carriage return is `13`, newline is `10`.
* A Go `int` is an `Int`.  Every index the code computes lies between `-1`
  and the length of the option list, so machine overflow plays no role.
* A `fmt.Stringer` is either a pointer to the package's own `option`
  wrapper or some other implementation, kept apart by an identity tag and
  carrying its label.  Items are non-nil and `String()` is pure.
* The key constants of package `terminal`, `core.HelpInputRune` and the
  result of `Render` are not part of the given sources; they are fields of
  `Env`.
* Indexing a slice out of range is a Go panic; it is the `none` of `index?`
  and the `panicked` outcome.
* `ReadRune` blocks until a key arrives.  The key source is a finite script
  of read results; when it is exhausted the prompt is `blocked`.
-/

namespace Survey

/-- Go `rune`. -/
abbrev Rune := Int

/-- Text of the configuration error created at `select.go:135`. -/
def noOptionsMsg : String := "please provide options to select from"

/-- Error values that Prompt can return. -/
inductive Err where
  /-- Result of `errors.New msg`. -/
  | new (msg : String)
  /-- The distinguished `terminal.InterruptErr`. -/
  | InterruptErr
  /-- Any other error value, produced by the key source or by the renderer. -/
  | external (code : Nat)
deriving DecidableEq, Repr

/-- Go `type option struct { value string }` (`select.go:113`). -/
structure option where
  value : String
deriving DecidableEq, Repr

/-- Go `func (o option) String() string` (`select.go:117`). -/
def option.String (o : option) : String := o.value

/-- A non-nil `fmt.Stringer` value: a `*option`, or a value of any other
implementing type, identified by `ident` and answering `label` to `String()`. -/
inductive Stringer where
  | ptrOption (o : option)
  | other (ident : Nat) (label : String)
deriving DecidableEq, Repr

/-- The `String()` method of a `fmt.Stringer`. -/
def Stringer.String : Stringer → String
  | .ptrOption o => o.String
  | .other _ label => label

/-- The `interface{}` value returned by Prompt: a Go string or a `fmt.Stringer`. -/
inductive Value where
  | str (s : String)
  | stringer (v : Stringer)
deriving DecidableEq, Repr

/-- Label of a returned value, as `Cleanup` derives it (`select.go:225-230`). -/
def Value.label : Value → String
  | .str s => s
  | .stringer v => v.String

/-- The fields of `type Select struct` (`select.go:23-35`), the embedded
renderer apart. -/
structure Select where
  Message : String
  Options : List String
  Default : String
  StringerOptions : List Stringer
  StringerDefault : Option Stringer
  Help : String
  PageSize : Int
  selectedIndex : Int
  useDefault : Bool
  showingHelp : Bool
deriving DecidableEq, Repr

/-- Go `type SelectTemplateData struct` (`select.go:38-45`). -/
structure SelectTemplateData extends Select where
  PageEntries : List String
  SelectedIndex : Int
  Answer : String
  ShowAnswer : Bool
  ShowHelp : Bool
deriving DecidableEq, Repr

/-- What `select.go` uses without defining: the key codes of package
`terminal`, `core.HelpInputRune`, and the error result of `Render` on a
frame (`nil` is `none`). -/
structure Env where
  KeyEnter : Rune
  KeyArrowUp : Rune
  KeyArrowDown : Rune
  KeyInterrupt : Rune
  KeyEndTransmission : Rune
  HelpInputRune : Rune
  Render : SelectTemplateData → Option Err

/-- One result of `rr.ReadRune()`: a rune, or a non-nil error. -/
inductive ReadResult where
  | rune (r : Rune)
  | err (e : Err)
deriving DecidableEq, Repr

/-- Calls to the external collaborators, in the order the code makes them. -/
inductive Event where
  | Render (data : SelectTemplateData)
  | CursorHide
  | CursorShow
  | SetTermMode
  | RestoreTermMode
  | ReadRune
deriving DecidableEq, Repr

/-- Go slice indexing `xs[i]` with an `int` index; `none` is the
index-out-of-range panic. -/
def index? {α : Type} (xs : List α) (i : Int) : Option α :=
  if 0 ≤ i then xs[i.toNat]? else none

/-- Modelled from the spec: `paginate`, which `select.go` calls and does not
define.  Section 4.2: when `pageSize <= 0` or `pageSize >= len(items)` the page
is the whole list and the visible index is `selectedIndex`; otherwise the page
is a window of exactly `pageSize` consecutive items that keeps the selected
item centred, its start clamped to `[0, len(items) - pageSize]`, and the
visible index is the offset of the selected item in the window.  The page is
returned as the labels that fill `PageEntries`. -/
def paginate (pageSize : Int) (items : List Stringer) (selectedIndex : Int) :
    List String × Int :=
  if pageSize ≤ 0 ∨ pageSize ≥ items.length then
    (items.map Stringer.String, selectedIndex)
  else
    let start : Int := max 0 (min (selectedIndex - pageSize / 2) (items.length - pageSize))
    (((items.drop start.toNat).take pageSize.toNat).map Stringer.String,
      selectedIndex - start)

/-- Result of one `OnChange` call: the receiver after the call, the calls made
to the collaborators, and the returned triple (`none` when the indexing of
`StringerOptions` panics). -/
structure OnChangeResult where
  s : Select
  events : List Event
  ret : Option (List Char × Int × Bool)

/-- Go `func (s *Select) OnChange(line []rune, pos int, key rune)`
(`select.go:63-111`).  The result of `Render` is discarded by the code. -/
def OnChange (E : Env) (s : Select) (_line : List Char) (_pos : Int) (key : Rune) :
    OnChangeResult :=
  if key = E.KeyEnter then
    { s := s
      events := []
      ret := (index? s.StringerOptions s.selectedIndex).map
        fun o => (o.String.toList, 0, true) }
  else
    let s1 : Select :=
      if key = E.KeyArrowUp then
        let s0 := { s with useDefault := false }
        if s0.selectedIndex = 0 then
          { s0 with selectedIndex := (s0.StringerOptions.length : Int) - 1 }
        else
          { s0 with selectedIndex := s0.selectedIndex - 1 }
      else if key = E.KeyArrowDown then
        let s0 := { s with useDefault := false }
        if s0.selectedIndex = (s0.StringerOptions.length : Int) - 1 then
          { s0 with selectedIndex := 0 }
        else
          { s0 with selectedIndex := s0.selectedIndex + 1 }
      else if key = E.HelpInputRune ∧ s.Help ≠ "" then
        { s with showingHelp := true }
      else s
    let page := paginate s1.PageSize s1.StringerOptions s1.selectedIndex
    let frame : SelectTemplateData :=
      { toSelect := s1
        PageEntries := page.1
        SelectedIndex := page.2
        Answer := ""
        ShowAnswer := false
        ShowHelp := s1.showingHelp }
    { s := s1
      events := [Event.Render frame]
      ret := (index? s1.StringerOptions s1.selectedIndex).map
        fun o => (o.String.toList, 0, true) }

/-- The block "Adapt old options" of Prompt (`select.go:122-130`). -/
def adapt (s : Select) : Select :=
  if s.StringerOptions.length = 0 ∧ s.Options.length ≠ 0 then
    let s1 : Select :=
      if s.StringerDefault = none ∧ s.Default ≠ "" then
        { s with StringerDefault := some (Stringer.ptrOption { value := s.Default }) }
      else s
    { s1 with StringerOptions :=
        s1.StringerOptions ++ s1.Options.map fun o => Stringer.ptrOption { value := o } }
  else s

/-- The scan `for i, opt := range s.StringerOptions` with its `break`
(`select.go:143-151`): the index of the first option, counted from `i`, whose
label is `target`. -/
def scanDefault (target : String) : List Stringer → Nat → Option Nat
  | [], _ => none
  | opt :: rest, i => if opt.String = target then some i else scanDefault target rest (i + 1)

/-- The initial selection `sel` of Prompt (`select.go:138-152`). -/
def initialSel (s : Select) : Int :=
  match s.StringerDefault with
  | none => 0
  | some d =>
    match scanDefault d.String s.StringerOptions 0 with
    | some i => (i : Int)
    | none => 0

/-- The prompt value at `select.go:154`: options adapted, selected index saved. -/
def start (s : Select) : Select :=
  let s1 := adapt s
  { s1 with selectedIndex := initialSel s1 }

/-- The frame handed to the first `Render` call (`select.go:157-167`), for a
prompt value whose selected index has been saved. -/
def initialFrame (s : Select) : SelectTemplateData :=
  let page := paginate s.PageSize s.StringerOptions s.selectedIndex
  { toSelect := s
    PageEntries := page.1
    SelectedIndex := page.2
    Answer := ""
    ShowAnswer := false
    ShowHelp := false }

/-- How the key loop of Prompt ends. -/
inductive LoopExit where
  /-- A `break`: carriage return, newline or end of transmission. -/
  | broke
  /-- A `return "", err` inside the loop. -/
  | returned (e : Err)
  /-- The key source has no further result: `ReadRune` blocks. -/
  | blocked
  /-- An index-out-of-range panic inside `OnChange`. -/
  | panicked
deriving DecidableEq, Repr

/-- Result of the key loop: how it ended, the prompt value, the calls made and
the read results not consumed. -/
structure LoopResult where
  exit : LoopExit
  s : Select
  events : List Event
  rest : List ReadResult

/-- The loop `for { r, _, err := rr.ReadRune() ... }` of Prompt
(`select.go:184-199`). -/
def readLoop (E : Env) (s : Select) : List ReadResult → LoopResult
  | [] => { exit := .blocked, s := s, events := [], rest := [] }
  | .err e :: rest =>
    { exit := .returned e, s := s, events := [Event.ReadRune], rest := rest }
  | .rune r :: rest =>
    if r = 13 ∨ r = 10 then
      { exit := .broke, s := s, events := [Event.ReadRune], rest := rest }
    else if r = E.KeyInterrupt then
      { exit := .returned Err.InterruptErr, s := s, events := [Event.ReadRune], rest := rest }
    else if r = E.KeyEndTransmission then
      { exit := .broke, s := s, events := [Event.ReadRune], rest := rest }
    else
      let oc := OnChange E s [] 0 r
      match oc.ret with
      | none =>
        { exit := .panicked, s := oc.s, events := Event.ReadRune :: oc.events, rest := rest }
      | some _ =>
        let next := readLoop E oc.s rest
        { next with events := Event.ReadRune :: (oc.events ++ next.events) }

/-- The tail of Prompt (`select.go:217-221`): a `*option` is returned as its
string, any other value as it is. -/
def answerOf (val : Stringer) : Value :=
  match val with
  | .ptrOption v => Value.str v.String
  | other => Value.stringer other

/-- The choice of `val` in Prompt (`select.go:201-216`); `none` is the
index-out-of-range panic. -/
def chooseVal (s : Select) : Option Stringer :=
  if s.useDefault then
    match s.StringerDefault with
    | some d => some d
    | none => index? s.StringerOptions 0
  else
    index? s.StringerOptions s.selectedIndex

/-- How a Prompt call ends. -/
inductive Outcome where
  /-- Prompt returned `(val, err)`; a nil error is `none`. -/
  | returned (val : Value) (err : Option Err)
  /-- Prompt waits for a key that the script does not hold. -/
  | blocked
  /-- Prompt panicked on an index out of range. -/
  | panicked
deriving DecidableEq, Repr

/-- Result of a Prompt call: the outcome, the prompt value it leaves behind,
the calls made to the collaborators, and the read results not consumed. -/
structure PromptResult where
  outcome : Outcome
  s : Select
  events : List Event
  rest : List ReadResult

/-- Go `func (s *Select) Prompt() (interface{}, error)` (`select.go:121-222`).
The deferred calls run, last registered first, when the function returns or
panics. -/
def Prompt (E : Env) (s : Select) (reads : List ReadResult) : PromptResult :=
  let s1 := adapt s
  if s1.StringerOptions.length = 0 then
    { outcome := .returned (Value.str "") (some (Err.new noOptionsMsg))
      s := s1, events := [], rest := reads }
  else
    let s2 : Select := { s1 with selectedIndex := initialSel s1 }
    let frame := initialFrame s2
    match E.Render frame with
    | some err =>
      { outcome := .returned (Value.str "") (some err)
        s := s2, events := [Event.Render frame], rest := reads }
    | none =>
      let s3 : Select := { s2 with useDefault := true }
      let loop := readLoop E s3 reads
      let before := [Event.Render frame, Event.CursorHide, Event.SetTermMode]
      let deferred := [Event.RestoreTermMode, Event.CursorShow]
      match loop.exit with
      | .blocked =>
        { outcome := .blocked, s := loop.s, events := before ++ loop.events, rest := loop.rest }
      | .panicked =>
        { outcome := .panicked, s := loop.s
          events := before ++ loop.events ++ deferred, rest := loop.rest }
      | .returned e =>
        { outcome := .returned (Value.str "") (some e), s := loop.s
          events := before ++ loop.events ++ deferred, rest := loop.rest }
      | .broke =>
        match chooseVal loop.s with
        | none =>
          { outcome := .panicked, s := loop.s
            events := before ++ loop.events ++ deferred, rest := loop.rest }
        | some val =>
          { outcome := .returned (answerOf val) none, s := loop.s
            events := before ++ loop.events ++ deferred, rest := loop.rest }

/-- An environment with the key codes `terminal` gives these names
(carriage return, ctrl-P, ctrl-N, ctrl-C, ctrl-D), `?` as the help rune and a
renderer that never fails. -/
def stdEnv : Env :=
  { KeyEnter := 13
    KeyArrowUp := 16
    KeyArrowDown := 14
    KeyInterrupt := 3
    KeyEndTransmission := 4
    HelpInputRune := 63
    Render := fun _ => none }

/-- A prompt value with plain labels only. -/
def plain (options : List String) (dflt : String) : Select :=
  { Message := "Choose:"
    Options := options
    Default := dflt
    StringerOptions := []
    StringerDefault := none
    Help := ""
    PageSize := 0
    selectedIndex := 0
    useDefault := false
    showingHelp := false }

/-- A prompt value with arbitrary labelled items only. -/
def labelled (items : List Stringer) (dflt : Option Stringer) : Select :=
  { Message := "Choose:"
    Options := []
    Default := ""
    StringerOptions := items
    StringerDefault := dflt
    Help := ""
    PageSize := 0
    selectedIndex := 0
    useDefault := false
    showingHelp := false }

/-- The selected index is a valid index of the option list. -/
def InRange (s : Select) : Prop :=
  0 ≤ s.selectedIndex ∧ s.selectedIndex < (s.StringerOptions.length : Int)

/-- The key ends the loop of Prompt: carriage return, newline, interrupt or
end of transmission. -/
def Env.terminates (E : Env) (k : Rune) : Prop :=
  k = 13 ∨ k = 10 ∨ k = E.KeyInterrupt ∨ k = E.KeyEndTransmission

/-- The key makes the loop of Prompt `break`: carriage return, newline, or end
of transmission when the interrupt test before it does not take the key. -/
def Env.confirms (E : Env) (c : Rune) : Prop :=
  c = 13 ∨ c = 10 ∨ (c = E.KeyEndTransmission ∧ c ≠ E.KeyInterrupt)

/-- The prompt value after `OnChange` has been called, as the loop of Prompt
does, for each key of `pre` in turn. -/
def afterKeys (E : Env) (s : Select) (pre : List Rune) : Select :=
  pre.foldl (fun st k => (OnChange E st [] 0 k).s) s

/-- The prompt value with which Prompt enters its key loop
(`select.go:178`). -/
def awaiting (s : Select) : Select :=
  { start s with useDefault := true }

instance (s : Select) : Decidable (InRange s) := by unfold InRange; infer_instance

instance (E : Env) (k : Rune) : Decidable (E.terminates k) := by
  unfold Env.terminates; infer_instance

instance (E : Env) (c : Rune) : Decidable (E.confirms c) := by
  unfold Env.confirms; infer_instance

/-- The part of a frame a Go template can read: the exported fields.  The
unexported fields of the embedded `Select` copy (`selectedIndex`, `useDefault`,
`showingHelp`) are blanked. -/
def SelectTemplateData.exported (d : SelectTemplateData) : SelectTemplateData :=
  { d with selectedIndex := 0, useDefault := false, showingHelp := false }

/-- A call to a collaborator with the frame of a `Render` call cut down to
what the template can read. -/
def Event.exported : Event → Event
  | .Render d => .Render d.exported
  | e => e

/-- A prompt value left behind by earlier use: the configuration of `s` with
arbitrary values in the three unexported session fields. -/
def leftOver (s : Select) (i : Int) (u h : Bool) : Select :=
  { s with selectedIndex := i, useDefault := u, showingHelp := h }

/-! ## The key handler -/

theorem OnChange_config (E : Env) (s : Select) (l : List Char) (p : Int) (k : Rune) :
    (OnChange E s l p k).s.StringerOptions = s.StringerOptions ∧
    (OnChange E s l p k).s.StringerDefault = s.StringerDefault ∧
    (OnChange E s l p k).s.Options = s.Options ∧
    (OnChange E s l p k).s.Default = s.Default ∧
    (OnChange E s l p k).s.Help = s.Help ∧
    (OnChange E s l p k).s.PageSize = s.PageSize ∧
    (OnChange E s l p k).s.Message = s.Message := by
  unfold OnChange
  split_ifs <;> simp <;> split_ifs <;> simp

theorem index?_isSome {α : Type} (xs : List α) (i : Int) (h0 : 0 ≤ i)
    (h1 : i < (xs.length : Int)) : ∃ x, index? xs i = some x ∧ x ∈ xs := by
  have hlt : i.toNat < xs.length := by omega
  refine ⟨xs[i.toNat], ?_, List.getElem_mem hlt⟩
  simp [index?, h0, hlt]

theorem OnChange_inRange (E : Env) (s : Select) (l : List Char) (p : Int) (k : Rune)
    (hs : InRange s) : InRange (OnChange E s l p k).s := by
  unfold InRange at hs ⊢
  unfold OnChange
  split_ifs <;> simp <;> (try split_ifs) <;> (try simp) <;> omega

theorem OnChange_ret (E : Env) (s : Select) (l : List Char) (p : Int) (k : Rune) :
    (OnChange E s l p k).ret
      = (index? (OnChange E s l p k).s.StringerOptions
          (OnChange E s l p k).s.selectedIndex).map fun o => (o.String.toList, 0, true) := by
  unfold OnChange
  split_ifs <;> rfl

theorem OnChange_returns (E : Env) (s : Select) (l : List Char) (p : Int) (k : Rune)
    (hs : InRange s) : ∃ r, (OnChange E s l p k).ret = some r := by
  have h1 := OnChange_inRange E s l p k hs
  obtain ⟨x, hx, -⟩ := index?_isSome _ _ h1.1 h1.2
  exact ⟨_, by rw [OnChange_ret, hx]; rfl⟩

theorem OnChange_no_arrow (E : Env) (s : Select) (l : List Char) (p : Int) (k : Rune)
    (hu : k ≠ E.KeyArrowUp) (hd : k ≠ E.KeyArrowDown) :
    (OnChange E s l p k).s.selectedIndex = s.selectedIndex ∧
    (OnChange E s l p k).s.useDefault = s.useDefault := by
  unfold OnChange
  split_ifs <;> simp

theorem OnChange_arrow (E : Env) (s : Select) (l : List Char) (p : Int) (k : Rune)
    (hk : k = E.KeyArrowUp ∨ k = E.KeyArrowDown) (he : k ≠ E.KeyEnter) :
    (OnChange E s l p k).s.useDefault = false := by
  unfold OnChange
  rcases hk with hk | hk <;> simp [he, hk] <;> split_ifs <;> simp_all

theorem OnChange_useDefault_false (E : Env) (s : Select) (l : List Char) (p : Int) (k : Rune)
    (h : s.useDefault = false) : (OnChange E s l p k).s.useDefault = false := by
  unfold OnChange
  split_ifs <;> simp [h] <;> split_ifs <;> simp

/-! ## The key loop -/

theorem afterKeys_config (E : Env) (pre : List Rune) (s : Select) :
    (afterKeys E s pre).StringerOptions = s.StringerOptions ∧
    (afterKeys E s pre).StringerDefault = s.StringerDefault := by
  induction pre generalizing s with
  | nil => exact ⟨rfl, rfl⟩
  | cons k pre ih =>
    have h := OnChange_config E s [] 0 k
    have h2 := ih (OnChange E s [] 0 k).s
    exact ⟨h2.1.trans h.1, h2.2.trans h.2.1⟩

theorem afterKeys_inRange (E : Env) (pre : List Rune) (s : Select) (hs : InRange s) :
    InRange (afterKeys E s pre) := by
  induction pre generalizing s with
  | nil => exact hs
  | cons k pre ih => exact ih _ (OnChange_inRange E s [] 0 k hs)

theorem afterKeys_no_arrow (E : Env) (pre : List Rune) (s : Select)
    (h : ∀ k ∈ pre, k ≠ E.KeyArrowUp ∧ k ≠ E.KeyArrowDown) :
    (afterKeys E s pre).selectedIndex = s.selectedIndex ∧
    (afterKeys E s pre).useDefault = s.useDefault := by
  induction pre generalizing s with
  | nil => exact ⟨rfl, rfl⟩
  | cons k pre ih =>
    have hk := h k (List.mem_cons_self k pre)
    have h1 := OnChange_no_arrow E s [] 0 k hk.1 hk.2
    have h2 := ih (OnChange E s [] 0 k).s fun j hj => h j (List.mem_cons_of_mem k hj)
    exact ⟨h2.1.trans h1.1, h2.2.trans h1.2⟩

theorem afterKeys_useDefault_false (E : Env) (pre : List Rune) (s : Select)
    (h : s.useDefault = false) : (afterKeys E s pre).useDefault = false := by
  induction pre generalizing s with
  | nil => exact h
  | cons k pre ih => exact ih _ (OnChange_useDefault_false E s [] 0 k h)

theorem afterKeys_arrow (E : Env) (pre : List Rune) (s : Select)
    (hu : E.KeyArrowUp ≠ E.KeyEnter) (hd : E.KeyArrowDown ≠ E.KeyEnter)
    (h : ∃ k ∈ pre, k = E.KeyArrowUp ∨ k = E.KeyArrowDown) :
    (afterKeys E s pre).useDefault = false := by
  induction pre generalizing s with
  | nil => obtain ⟨k, hk, -⟩ := h; cases hk
  | cons j pre ih =>
    obtain ⟨k, hk, hk2⟩ := h
    rcases List.mem_cons.1 hk with rfl | hmem
    · have he : k ≠ E.KeyEnter := by
        rcases hk2 with rfl | rfl
        · exact hu
        · exact hd
      exact afterKeys_useDefault_false E pre _ (OnChange_arrow E s [] 0 k hk2 he)
    · exact ih _ ⟨k, hmem, hk2⟩

theorem readLoop_keys (E : Env) (pre : List Rune) (s : Select) (hs : InRange s)
    (hpre : ∀ k ∈ pre, ¬ E.terminates k) (tl : List ReadResult) :
    (readLoop E s (pre.map ReadResult.rune ++ tl)).exit
        = (readLoop E (afterKeys E s pre) tl).exit ∧
    (readLoop E s (pre.map ReadResult.rune ++ tl)).s
        = (readLoop E (afterKeys E s pre) tl).s ∧
    (readLoop E s (pre.map ReadResult.rune ++ tl)).rest
        = (readLoop E (afterKeys E s pre) tl).rest := by
  induction pre generalizing s with
  | nil => exact ⟨rfl, rfl, rfl⟩
  | cons k pre ih =>
    have hk := hpre k (List.mem_cons_self k pre)
    simp only [Env.terminates, not_or] at hk
    obtain ⟨r, hr⟩ := OnChange_returns E s [] 0 k hs
    have h2 := ih (OnChange E s [] 0 k).s (OnChange_inRange E s [] 0 k hs)
      fun j hj => hpre j (List.mem_cons_of_mem k hj)
    have hstep : ∀ rest, readLoop E s (ReadResult.rune k :: rest)
        = { readLoop E (OnChange E s [] 0 k).s rest with
            events := Event.ReadRune ::
              ((OnChange E s [] 0 k).events ++ (readLoop E (OnChange E s [] 0 k).s rest).events) } := by
      intro rest
      rw [readLoop]
      simp only [hk.1, hk.2.1, hk.2.2.1, hk.2.2.2, or_self, if_false, hr]
    simp only [List.map_cons, List.cons_append, hstep]
    exact h2

theorem readLoop_confirm (E : Env) (s : Select) (c : Rune) (hc : E.confirms c)
    (rest : List ReadResult) :
    (readLoop E s (ReadResult.rune c :: rest)).exit = LoopExit.broke ∧
    (readLoop E s (ReadResult.rune c :: rest)).s = s ∧
    (readLoop E s (ReadResult.rune c :: rest)).rest = rest ∧
    (readLoop E s (ReadResult.rune c :: rest)).events = [Event.ReadRune] := by
  rw [readLoop]
  rcases hc with h | h | ⟨h1, h2⟩
  · simp [h]
  · simp [h]
  · subst h1
    split_ifs <;> simp_all

theorem readLoop_interrupt (E : Env) (s : Select) (h13 : E.KeyInterrupt ≠ 13)
    (h10 : E.KeyInterrupt ≠ 10) (rest : List ReadResult) :
    (readLoop E s (ReadResult.rune E.KeyInterrupt :: rest)).exit
        = LoopExit.returned Err.InterruptErr ∧
    (readLoop E s (ReadResult.rune E.KeyInterrupt :: rest)).s = s ∧
    (readLoop E s (ReadResult.rune E.KeyInterrupt :: rest)).rest = rest := by
  rw [readLoop]
  simp [h13, h10]

/-! ## Initial selection -/

theorem scanDefault_some (target : String) (xs : List Stringer) (i j : Nat)
    (h : scanDefault target xs i = some j) :
    i ≤ j ∧ j - i < xs.length ∧ (xs[j - i]?).map Stringer.String = some target ∧
    ∀ m, m < j - i → (xs[m]?).map Stringer.String ≠ some target := by
  induction xs generalizing i with
  | nil => simp [scanDefault] at h
  | cons x xs ih =>
    rw [scanDefault] at h
    split_ifs at h with hx
    · cases h
      simp [hx]
    · obtain ⟨h1, h2, h3, h4⟩ := ih (i + 1) h
      have hji : j - i = (j - (i + 1)) + 1 := by omega
      refine ⟨by omega, by simp only [List.length_cons]; omega, ?_, ?_⟩
      · rw [hji, List.getElem?_cons_succ]; exact h3
      · intro m hm
        cases m with
        | zero => simpa using hx
        | succ m =>
          rw [List.getElem?_cons_succ]
          exact h4 m (by omega)

theorem scanDefault_none (target : String) (xs : List Stringer) (i : Nat) :
    scanDefault target xs i = none ↔ ∀ x ∈ xs, x.String ≠ target := by
  induction xs generalizing i with
  | nil => simp [scanDefault]
  | cons x xs ih =>
    rw [scanDefault]
    split_ifs with hx
    · simp [hx]
    · simp [hx, ih]

theorem initialSel_inRange (s : Select) (hne : s.StringerOptions ≠ []) :
    0 ≤ initialSel s ∧ initialSel s < (s.StringerOptions.length : Int) := by
  have hpos : 0 < s.StringerOptions.length := List.length_pos.2 hne
  unfold initialSel
  split
  · omega
  · split
    · next i hi =>
      have := scanDefault_some _ _ _ _ hi
      omega
    · omega

theorem awaiting_inRange (s : Select) (hne : (adapt s).StringerOptions ≠ []) :
    InRange (awaiting s) := initialSel_inRange (adapt s) hne

/-! ## Prompt in terms of its key loop -/

theorem Prompt_loop (E : Env) (s : Select) (reads : List ReadResult)
    (hne : (adapt s).StringerOptions ≠ [])
    (hR : E.Render (initialFrame (start s)) = none) :
    (Prompt E s reads).outcome
      = (match (readLoop E (awaiting s) reads).exit with
          | .blocked => Outcome.blocked
          | .panicked => Outcome.panicked
          | .returned e => Outcome.returned (Value.str "") (some e)
          | .broke =>
            match chooseVal (readLoop E (awaiting s) reads).s with
            | none => Outcome.panicked
            | some val => Outcome.returned (answerOf val) none) ∧
    (Prompt E s reads).s = (readLoop E (awaiting s) reads).s ∧
    (Prompt E s reads).rest = (readLoop E (awaiting s) reads).rest ∧
    (Prompt E s reads).events
      = [Event.Render (initialFrame (start s)), Event.CursorHide, Event.SetTermMode]
        ++ (readLoop E (awaiting s) reads).events
        ++ (if (readLoop E (awaiting s) reads).exit = LoopExit.blocked then []
            else [Event.RestoreTermMode, Event.CursorShow]) := by
  have hlen : ¬ (adapt s).StringerOptions.length = 0 := by
    simpa [List.length_eq_zero] using hne
  have hR2 : E.Render (initialFrame { adapt s with selectedIndex := initialSel (adapt s) })
      = none := hR
  have hs3 : ({ ({ adapt s with selectedIndex := initialSel (adapt s) } : Select) with
      useDefault := true } : Select) = awaiting s := rfl
  have hs2 : ({ adapt s with selectedIndex := initialSel (adapt s) } : Select) = start s := rfl
  unfold Prompt
  simp only [hlen, if_false, hR2, hs3]
  cases hex : (readLoop E (awaiting s) reads).exit with
  | blocked => simp [hs2]
  | panicked => simp [hs2]
  | returned e => simp [hs2]
  | broke =>
    cases hv : chooseVal (readLoop E (awaiting s) reads).s <;> simp [hs2]

theorem Prompt_empty (E : Env) (s : Select) (reads : List ReadResult)
    (h : (adapt s).StringerOptions = []) :
    (Prompt E s reads).outcome
      = Outcome.returned (Value.str "") (some (Err.new noOptionsMsg)) ∧
    (Prompt E s reads).s = adapt s ∧
    (Prompt E s reads).events = [] ∧
    (Prompt E s reads).rest = reads := by
  unfold Prompt
  simp [h]

theorem Prompt_render_fails (E : Env) (s : Select) (reads : List ReadResult) (err : Err)
    (hne : (adapt s).StringerOptions ≠ [])
    (hR : E.Render (initialFrame (start s)) = some err) :
    (Prompt E s reads).outcome = Outcome.returned (Value.str "") (some err) ∧
    (Prompt E s reads).s = start s ∧
    (Prompt E s reads).events = [Event.Render (initialFrame (start s))] ∧
    (Prompt E s reads).rest = reads := by
  have hlen : ¬ (adapt s).StringerOptions.length = 0 := by
    simpa [List.length_eq_zero] using hne
  have hs2 : ({ adapt s with selectedIndex := initialSel (adapt s) } : Select) = start s := rfl
  unfold Prompt
  simp [hlen, hs2, hR]

theorem Prompt_confirmed (E : Env) (s : Select) (pre : List Rune) (c : Rune)
    (rest : List ReadResult)
    (hne : (adapt s).StringerOptions ≠ [])
    (hR : E.Render (initialFrame (start s)) = none)
    (hpre : ∀ k ∈ pre, ¬ E.terminates k) (hc : E.confirms c) :
    (Prompt E s (pre.map ReadResult.rune ++ ReadResult.rune c :: rest)).outcome
      = (match chooseVal (afterKeys E (awaiting s) pre) with
          | none => Outcome.panicked
          | some val => Outcome.returned (answerOf val) none) ∧
    (Prompt E s (pre.map ReadResult.rune ++ ReadResult.rune c :: rest)).s
      = afterKeys E (awaiting s) pre ∧
    (Prompt E s (pre.map ReadResult.rune ++ ReadResult.rune c :: rest)).rest = rest := by
  obtain ⟨h1, h2, h3, -⟩ :=
    Prompt_loop E s (pre.map ReadResult.rune ++ ReadResult.rune c :: rest) hne hR
  obtain ⟨k1, k2, k3⟩ := readLoop_keys E pre (awaiting s) (awaiting_inRange s hne) hpre
    (ReadResult.rune c :: rest)
  obtain ⟨c1, c2, c3, -⟩ := readLoop_confirm E (afterKeys E (awaiting s) pre) c hc rest
  rw [h1, h2, h3, k1, k2, k3, c1, c2, c3]
  exact ⟨rfl, rfl, rfl⟩

theorem readLoop_config (E : Env) (reads : List ReadResult) (s : Select) :
    (readLoop E s reads).s.StringerOptions = s.StringerOptions ∧
    (readLoop E s reads).s.StringerDefault = s.StringerDefault := by
  induction reads generalizing s with
  | nil => exact ⟨rfl, rfl⟩
  | cons rd reads ih =>
    cases rd with
    | err e => exact ⟨rfl, rfl⟩
    | rune r =>
      have hc := OnChange_config E s [] 0 r
      have h2 := ih (OnChange E s [] 0 r).s
      rw [readLoop]
      split_ifs
      · exact ⟨rfl, rfl⟩
      · exact ⟨rfl, rfl⟩
      · exact ⟨rfl, rfl⟩
      · dsimp only
        cases hret : (OnChange E s [] 0 r).ret with
        | none => exact ⟨hc.1, hc.2.1⟩
        | some v => exact ⟨h2.1.trans hc.1, h2.2.trans hc.2.1⟩

theorem Prompt_config (E : Env) (s : Select) (reads : List ReadResult) :
    (Prompt E s reads).s.StringerOptions = (adapt s).StringerOptions ∧
    (Prompt E s reads).s.StringerDefault = (adapt s).StringerDefault := by
  by_cases hne : (adapt s).StringerOptions = []
  · rw [(Prompt_empty E s reads hne).2.1]
    exact ⟨rfl, rfl⟩
  · cases hR : E.Render (initialFrame (start s)) with
    | some err =>
      rw [(Prompt_render_fails E s reads err hne hR).2.1]
      exact ⟨rfl, rfl⟩
    | none =>
      rw [(Prompt_loop E s reads hne hR).2.1]
      exact readLoop_config E reads (awaiting s)

theorem Prompt_congr (E : Env) (s : Select) (r1 r2 : List ReadResult)
    (h : ∀ st, (readLoop E st r1).exit = (readLoop E st r2).exit ∧
      (readLoop E st r1).s = (readLoop E st r2).s ∧
      (readLoop E st r1).events = (readLoop E st r2).events) :
    (Prompt E s r1).outcome = (Prompt E s r2).outcome ∧
    (Prompt E s r1).s = (Prompt E s r2).s ∧
    (Prompt E s r1).events = (Prompt E s r2).events := by
  by_cases hne : (adapt s).StringerOptions = []
  · obtain ⟨a1, a2, a3, -⟩ := Prompt_empty E s r1 hne
    obtain ⟨b1, b2, b3, -⟩ := Prompt_empty E s r2 hne
    rw [a1, a2, a3, b1, b2, b3]
    exact ⟨rfl, rfl, rfl⟩
  · cases hR : E.Render (initialFrame (start s)) with
    | some err =>
      obtain ⟨a1, a2, a3, -⟩ := Prompt_render_fails E s r1 err hne hR
      obtain ⟨b1, b2, b3, -⟩ := Prompt_render_fails E s r2 err hne hR
      rw [a1, a2, a3, b1, b2, b3]
      exact ⟨rfl, rfl, rfl⟩
    | none =>
      obtain ⟨a1, a2, -, a3⟩ := Prompt_loop E s r1 hne hR
      obtain ⟨b1, b2, -, b3⟩ := Prompt_loop E s r2 hne hR
      obtain ⟨h1, h2, h3⟩ := h (awaiting s)
      rw [a1, a2, a3, b1, b2, b3, h1, h2, h3]
      exact ⟨rfl, rfl, rfl⟩

theorem readLoop_break_congr (E : Env) (pre : List ReadResult) (c1 c2 : Rune)
    (h1 : E.confirms c1) (h2 : E.confirms c2) (rest : List ReadResult) (s : Select) :
    (readLoop E s (pre ++ ReadResult.rune c1 :: rest)).exit
        = (readLoop E s (pre ++ ReadResult.rune c2 :: rest)).exit ∧
    (readLoop E s (pre ++ ReadResult.rune c1 :: rest)).s
        = (readLoop E s (pre ++ ReadResult.rune c2 :: rest)).s ∧
    (readLoop E s (pre ++ ReadResult.rune c1 :: rest)).events
        = (readLoop E s (pre ++ ReadResult.rune c2 :: rest)).events := by
  induction pre generalizing s with
  | nil =>
    obtain ⟨a1, a2, -, e1⟩ := readLoop_confirm E s c1 h1 rest
    obtain ⟨b1, b2, -, e2⟩ := readLoop_confirm E s c2 h2 rest
    simp only [List.nil_append]
    rw [a1, a2, b1, b2, e1, e2]
    exact ⟨rfl, rfl, rfl⟩
  | cons rd pre ih =>
    cases rd with
    | err e => exact ⟨rfl, rfl, rfl⟩
    | rune r =>
      obtain ⟨i1, i2, i3⟩ := ih (OnChange E s [] 0 r).s
      simp only [List.cons_append]
      rw [readLoop, readLoop]
      split_ifs
      · exact ⟨rfl, rfl, rfl⟩
      · exact ⟨rfl, rfl, rfl⟩
      · exact ⟨rfl, rfl, rfl⟩
      · dsimp only
        cases hret : (OnChange E s [] 0 r).ret with
        | none => exact ⟨rfl, rfl, rfl⟩
        | some v => simp [i1, i2, i3]

theorem OnChange_down_up (E : Env) (s : Select) (hs : InRange s)
    (hu : E.KeyArrowUp ≠ E.KeyEnter) (hd : E.KeyArrowDown ≠ E.KeyEnter)
    (hud : E.KeyArrowDown ≠ E.KeyArrowUp) :
    (OnChange E (OnChange E s [] 0 E.KeyArrowDown).s [] 0 E.KeyArrowUp).s.selectedIndex
      = s.selectedIndex := by
  unfold InRange at hs
  unfold OnChange
  simp only [hu, hd, hud, if_false, if_true]
  split_ifs <;> simp at * <;> omega

theorem scanDefault_labels (target : String) (xs ys : List Stringer) (i : Nat)
    (h : xs.map Stringer.String = ys.map Stringer.String) :
    scanDefault target xs i = scanDefault target ys i := by
  induction xs generalizing ys i with
  | nil =>
    cases ys with
    | nil => rfl
    | cons y ys => simp at h
  | cons x xs ih =>
    cases ys with
    | nil => simp at h
    | cons y ys =>
      simp only [List.map_cons, List.cons.injEq] at h
      rw [scanDefault, scanDefault, h.1, ih ys (i + 1) h.2]

theorem Prompt_nil_selectedIndex (E : Env) (s : Select)
    (hne : (adapt s).StringerOptions ≠ []) :
    (Prompt E s []).s.selectedIndex = initialSel (adapt s) := by
  cases hR : E.Render (initialFrame (start s)) with
  | some err =>
    rw [(Prompt_render_fails E s [] err hne hR).2.1]
    rfl
  | none =>
    rw [(Prompt_loop E s [] hne hR).2.1]
    rfl

theorem answerOf_label (v : Stringer) : (answerOf v).label = v.String := by
  cases v <;> rfl

theorem index?_zero {α : Type} (xs : List α) (hne : xs ≠ []) :
    index? xs 0 = some (xs.head hne) := by
  cases xs with
  | nil => exact absurd rfl hne
  | cons x xs => simp [index?]

theorem adapt_of_no_labels (s : Select) (hO : s.Options = []) : adapt s = s := by
  unfold adapt
  simp [hO]

theorem adapt_of_items (s : Select) (hS : s.StringerOptions ≠ []) : adapt s = s := by
  unfold adapt
  simp [hS]

theorem adapt_of_labels (s : Select) (hS : s.StringerOptions = []) (hO : s.Options ≠ []) :
    (adapt s).StringerOptions = s.Options.map (fun o => Stringer.ptrOption { value := o }) ∧
    (adapt s).StringerDefault
      = (if s.StringerDefault = none ∧ s.Default ≠ "" then
          some (Stringer.ptrOption { value := s.Default })
        else s.StringerDefault) := by
  unfold adapt
  simp only [hS, hO, List.length_nil, List.length_eq_zero, ne_eq, not_false_eq_true, and_self,
    if_true]
  split_ifs <;> simp [hS]

theorem initialSel_first (s : Select) (d : Stringer) (k : Nat)
    (hd : s.StringerDefault = some d)
    (hk : (s.StringerOptions[k]?).map Stringer.String = some d.String)
    (hfirst : ∀ j, j < k → (s.StringerOptions[j]?).map Stringer.String ≠ some d.String) :
    initialSel s = (k : Int) := by
  unfold initialSel
  rw [hd]
  simp only
  cases hscan : scanDefault d.String s.StringerOptions 0 with
  | none =>
    exfalso
    rw [scanDefault_none] at hscan
    cases hx : s.StringerOptions[k]? with
    | none => simp [hx] at hk
    | some x =>
      rw [hx] at hk
      simp only [Option.map_some', Option.some.injEq] at hk
      exact hscan x (List.getElem?_mem hx) hk
  | some j =>
    obtain ⟨-, -, h3, h4⟩ := scanDefault_some _ _ _ _ hscan
    simp only [Nat.sub_zero] at h3 h4
    have : j = k := by
      rcases Nat.lt_trichotomy j k with h | h | h
      · exact absurd h3 (hfirst j h)
      · exact h
      · exact absurd hk (h4 k h)
    simp [this]

theorem initialSel_no_match (s : Select)
    (h : s.StringerDefault = none ∨
      ∃ d, s.StringerDefault = some d ∧ ∀ o ∈ s.StringerOptions, o.String ≠ d.String) :
    initialSel s = 0 := by
  unfold initialSel
  rcases h with h | ⟨d, hd, hno⟩
  · rw [h]
  · rw [hd]
    simp only
    rw [(scanDefault_none d.String s.StringerOptions 0).2 hno]

theorem initialSel_labels (s t : Select)
    (ho : s.StringerOptions.map Stringer.String = t.StringerOptions.map Stringer.String)
    (hd : s.StringerDefault.map Stringer.String = t.StringerDefault.map Stringer.String) :
    initialSel s = initialSel t := by
  unfold initialSel
  cases hs : s.StringerDefault with
  | none =>
    rw [hs] at hd
    cases ht : t.StringerDefault with
    | none => rfl
    | some e => rw [ht] at hd; simp at hd
  | some d =>
    rw [hs] at hd
    cases ht : t.StringerDefault with
    | none => rw [ht] at hd; simp at hd
    | some e =>
      rw [ht] at hd
      simp only [Option.map_some', Option.some.injEq] at hd
      simp only
      rw [hd, scanDefault_labels e.String _ _ 0 ho]

theorem Prompt_default_answer (E : Env) (s : Select) (pre : List Rune) (c : Rune)
    (rest : List ReadResult)
    (hne : (adapt s).StringerOptions ≠ [])
    (hR : E.Render (initialFrame (start s)) = none)
    (hpre : ∀ k ∈ pre, ¬ E.terminates k) (hc : E.confirms c)
    (hno : ∀ k ∈ pre, k ≠ E.KeyArrowUp ∧ k ≠ E.KeyArrowDown) :
    (Prompt E s (pre.map ReadResult.rune ++ ReadResult.rune c :: rest)).outcome
      = Outcome.returned
          (answerOf ((adapt s).StringerDefault.getD ((adapt s).StringerOptions.head hne)))
          none := by
  obtain ⟨h1, -, -⟩ := Prompt_confirmed E s pre c rest hne hR hpre hc
  obtain ⟨k1, k2⟩ := afterKeys_config E pre (awaiting s)
  have o1 : (afterKeys E (awaiting s) pre).StringerOptions = (adapt s).StringerOptions := k1
  have o2 : (afterKeys E (awaiting s) pre).StringerDefault = (adapt s).StringerDefault := k2
  have hu : (afterKeys E (awaiting s) pre).useDefault = true :=
    (afterKeys_no_arrow E pre (awaiting s) hno).2
  rw [h1]
  unfold chooseVal
  rw [hu, o1, o2]
  cases hd : (adapt s).StringerDefault with
  | some d => rfl
  | none => simp [index?_zero _ hne]

theorem Prompt_index_answer (E : Env) (s : Select) (pre : List Rune) (c : Rune)
    (rest : List ReadResult)
    (hne : (adapt s).StringerOptions ≠ [])
    (hR : E.Render (initialFrame (start s)) = none)
    (hpre : ∀ k ∈ pre, ¬ E.terminates k) (hc : E.confirms c)
    (hf : (afterKeys E (awaiting s) pre).useDefault = false) :
    ∃ item,
      index? (adapt s).StringerOptions
        (Prompt E s (pre.map ReadResult.rune ++ ReadResult.rune c :: rest)).s.selectedIndex
          = some item ∧
      item ∈ (adapt s).StringerOptions ∧
      (Prompt E s (pre.map ReadResult.rune ++ ReadResult.rune c :: rest)).outcome
        = Outcome.returned (answerOf item) none := by
  obtain ⟨h1, h2, -⟩ := Prompt_confirmed E s pre c rest hne hR hpre hc
  obtain ⟨k1, -⟩ := afterKeys_config E pre (awaiting s)
  have o1 : (afterKeys E (awaiting s) pre).StringerOptions = (adapt s).StringerOptions := k1
  have hr := afterKeys_inRange E pre (awaiting s) (awaiting_inRange s hne)
  obtain ⟨item, hitem, hmem⟩ := index?_isSome _ _ hr.1 hr.2
  rw [o1] at hitem hmem
  refine ⟨item, by rw [h2]; exact hitem, hmem, ?_⟩
  rw [h1]
  unfold chooseVal
  rw [hf, o1]
  simp [hitem]

theorem initialSel_match (s : Select) (d : Stringer)
    (hd : s.StringerDefault = some d)
    (hex : ∃ o ∈ s.StringerOptions, o.String = d.String) :
    ∃ i : Nat, initialSel s = (i : Int) ∧
      (s.StringerOptions[i]?).map Stringer.String = some d.String ∧
      ∀ j, j < i → (s.StringerOptions[j]?).map Stringer.String ≠ some d.String := by
  unfold initialSel
  rw [hd]
  simp only
  cases hscan : scanDefault d.String s.StringerOptions 0 with
  | none =>
    exfalso
    obtain ⟨o, ho, hl⟩ := hex
    exact (scanDefault_none d.String s.StringerOptions 0).1 hscan o ho hl
  | some j =>
    obtain ⟨-, -, h3, h4⟩ := scanDefault_some _ _ _ _ hscan
    simp only [Nat.sub_zero] at h3 h4
    exact ⟨j, rfl, h3, h4⟩

theorem index?_natCast {α : Type} (xs : List α) (i : Nat) : index? xs (i : Int) = xs[i]? := by
  simp [index?]

theorem OnChange_keeps (E : Env) (s : Select) (l : List Char) (p : Int) (k : Rune)
    (h : (OnChange E s l p k).s.useDefault = true) :
    s.useDefault = true ∧ (OnChange E s l p k).s.selectedIndex = s.selectedIndex := by
  unfold OnChange at h ⊢
  split_ifs at h ⊢ <;> simp_all <;> split_ifs at h

theorem afterKeys_keeps (E : Env) (pre : List Rune) (s : Select)
    (h : (afterKeys E s pre).useDefault = true) :
    (afterKeys E s pre).selectedIndex = s.selectedIndex := by
  induction pre generalizing s with
  | nil => rfl
  | cons k pre ih =>
    have h1 : (OnChange E s [] 0 k).s.useDefault = true := by
      cases hb : (OnChange E s [] 0 k).s.useDefault with
      | true => rfl
      | false =>
        have := afterKeys_useDefault_false E pre _ hb
        have h' : (afterKeys E (OnChange E s [] 0 k).s pre).useDefault = true := h
        rw [this] at h'
        cases h'
    exact (ih _ h).trans (OnChange_keeps E s [] 0 k h1).2

theorem loop_interrupted (E : Env) (s : Select) (pre : List Rune) (rest : List ReadResult)
    (hne : (adapt s).StringerOptions ≠ [])
    (hR : E.Render (initialFrame (start s)) = none)
    (hpre : ∀ k ∈ pre, ¬ E.terminates k)
    (h13 : E.KeyInterrupt ≠ 13) (h10 : E.KeyInterrupt ≠ 10) :
    (Prompt E s (pre.map ReadResult.rune ++ ReadResult.rune E.KeyInterrupt :: rest)).outcome
      = Outcome.returned (Value.str "") (some Err.InterruptErr) ∧
    (Prompt E s (pre.map ReadResult.rune ++ ReadResult.rune E.KeyInterrupt :: rest)).rest
      = rest := by
  obtain ⟨h1, -, h3, -⟩ :=
    Prompt_loop E s (pre.map ReadResult.rune ++ ReadResult.rune E.KeyInterrupt :: rest) hne hR
  obtain ⟨k1, -, k3⟩ := readLoop_keys E pre (awaiting s) (awaiting_inRange s hne) hpre
    (ReadResult.rune E.KeyInterrupt :: rest)
  obtain ⟨c1, -, c3⟩ := readLoop_interrupt E (afterKeys E (awaiting s) pre) h13 h10 rest
  rw [h1, h3, k1, k3, c1, c3]
  exact ⟨rfl, rfl⟩

/-! ## Claims -/

/-- C1: when the plain-label list and the arbitrary-item list are both empty,
Prompt returns the empty answer with the error "please provide options to
select from", having made no call to a collaborator (no Render, no key read)
and having consumed no read result. -/
theorem Prompt_without_options (E : Env) (s : Select) (reads : List ReadResult)
    (hO : s.Options = []) (hS : s.StringerOptions = []) :
    (Prompt E s reads).outcome
      = Outcome.returned (Value.str "")
          (some (Err.new "please provide options to select from")) ∧
    (Prompt E s reads).events = [] ∧
    (Prompt E s reads).rest = reads := by
  have h : (adapt s).StringerOptions = [] := by rw [adapt_of_no_labels s hO]; exact hS
  obtain ⟨h1, -, h3, h4⟩ := Prompt_empty E s reads h
  exact ⟨h1, h3, h4⟩

theorem Prompt_without_options_witness :
    (plain [] "b").Options = [] ∧ (plain [] "b").StringerOptions = [] ∧
    (Prompt stdEnv (plain [] "b") [ReadResult.rune 14, ReadResult.rune 13]).outcome
      = Outcome.returned (Value.str "")
          (some (Err.new "please provide options to select from")) ∧
    (Prompt stdEnv (plain [] "b") [ReadResult.rune 14, ReadResult.rune 13]).events = [] ∧
    (Prompt stdEnv (plain [] "b") [ReadResult.rune 14, ReadResult.rune 13]).rest
      = [ReadResult.rune 14, ReadResult.rune 13] :=
  ⟨rfl, rfl, Prompt_without_options stdEnv (plain [] "b")
    [ReadResult.rune 14, ReadResult.rune 13] rfl rfl⟩

/-- C2: for a non-empty option list whose first frame renders, and keys `pre`
that do not end the loop followed by a confirming key (carriage return,
newline, end of transmission): when `pre` holds no arrow key the answer is the
configured default item if there is one and the first item otherwise; when
`pre` holds an arrow key (the arrow codes differing from the Enter code that
OnChange tests first) the answer is the item at the final selectedIndex. -/
theorem Prompt_answer_rule (E : Env) (s : Select) (pre : List Rune) (c : Rune)
    (rest : List ReadResult)
    (hne : (adapt s).StringerOptions ≠ [])
    (hR : E.Render (initialFrame (start s)) = none)
    (hpre : ∀ k ∈ pre, ¬ E.terminates k) (hc : E.confirms c) :
    ((∀ k ∈ pre, k ≠ E.KeyArrowUp ∧ k ≠ E.KeyArrowDown) →
      (Prompt E s (pre.map ReadResult.rune ++ ReadResult.rune c :: rest)).outcome
        = Outcome.returned
            (answerOf ((adapt s).StringerDefault.getD ((adapt s).StringerOptions.head hne)))
            none) ∧
    (E.KeyArrowUp ≠ E.KeyEnter → E.KeyArrowDown ≠ E.KeyEnter →
      (∃ k ∈ pre, k = E.KeyArrowUp ∨ k = E.KeyArrowDown) →
      ∃ item,
        index? (adapt s).StringerOptions
          (Prompt E s (pre.map ReadResult.rune ++ ReadResult.rune c :: rest)).s.selectedIndex
            = some item ∧
        (Prompt E s (pre.map ReadResult.rune ++ ReadResult.rune c :: rest)).outcome
          = Outcome.returned (answerOf item) none) := by
  constructor
  · exact Prompt_default_answer E s pre c rest hne hR hpre hc
  · intro hu hd harrow
    obtain ⟨item, h1, -, h2⟩ := Prompt_index_answer E s pre c rest hne hR hpre hc
      (afterKeys_arrow E pre (awaiting s) hu hd harrow)
    exact ⟨item, h1, h2⟩

theorem Prompt_answer_rule_witness :
    (Prompt stdEnv (plain ["a", "b", "c"] "b")
        ([63, 97].map ReadResult.rune ++ ReadResult.rune 13 :: [])).outcome
      = Outcome.returned (Value.str "b") none ∧
    (Prompt stdEnv (plain ["a", "b", "c"] "")
        ([63, 97].map ReadResult.rune ++ ReadResult.rune 4 :: [])).outcome
      = Outcome.returned (Value.str "a") none ∧
    ∃ item,
      index? (adapt (plain ["a", "b", "c"] "b")).StringerOptions
        (Prompt stdEnv (plain ["a", "b", "c"] "b")
          ([14, 63].map ReadResult.rune ++ ReadResult.rune 10 :: [])).s.selectedIndex
          = some item ∧
      (Prompt stdEnv (plain ["a", "b", "c"] "b")
          ([14, 63].map ReadResult.rune ++ ReadResult.rune 10 :: [])).outcome
        = Outcome.returned (answerOf item) none :=
  ⟨(Prompt_answer_rule stdEnv (plain ["a", "b", "c"] "b") [63, 97] 13 []
      (by decide) rfl (by decide) (by decide)).1 (by decide),
   (Prompt_answer_rule stdEnv (plain ["a", "b", "c"] "") [63, 97] 4 []
      (by decide) rfl (by decide) (by decide)).1 (by decide),
   (Prompt_answer_rule stdEnv (plain ["a", "b", "c"] "b") [14, 63] 10 []
      (by decide) rfl (by decide) (by decide)).2 (by decide) (by decide) (by decide)⟩

/-- C3, as stated, fails for arbitrary labelled items: with items `a`, `b`
and a default item that is a different value labelled `b`, an untouched Enter
returns the default value, not the item at position 1. -/
theorem untouched_enter_returns_default_value :
    (labelled [Stringer.other 1 "a", Stringer.other 2 "b"]
        (some (Stringer.other 99 "b"))).StringerOptions[1]? = some (Stringer.other 2 "b") ∧
    (Stringer.other 2 "b").String = (Stringer.other 99 "b").String ∧
    (Stringer.other 1 "a").String ≠ (Stringer.other 99 "b").String ∧
    (Prompt stdEnv
        (labelled [Stringer.other 1 "a", Stringer.other 2 "b"] (some (Stringer.other 99 "b")))
        [ReadResult.rune 13]).outcome
      = Outcome.returned (Value.stringer (Stringer.other 99 "b")) none ∧
    (Prompt stdEnv
        (labelled [Stringer.other 1 "a", Stringer.other 2 "b"] (some (Stringer.other 99 "b")))
        [ReadResult.rune 13]).outcome
      ≠ Outcome.returned (answerOf (Stringer.other 2 "b")) none := by
  decide

/-- C3, amended: when the configured default `d` has the label of the item at
position `k`, the first such position, an Enter with no arrow key before it
returns the default item itself (its string when it is a plain-label option),
whose label is the label of the item at `k`, and leaves selectedIndex at `k`;
when options and default both come from plain labels, that value is the item
at `k`. -/
theorem Prompt_untouched_enter (E : Env) (s : Select) (pre : List Rune) (c : Rune)
    (rest : List ReadResult) (d item : Stringer) (k : Nat)
    (hne : (adapt s).StringerOptions ≠ [])
    (hR : E.Render (initialFrame (start s)) = none)
    (hpre : ∀ j ∈ pre, ¬ E.terminates j) (hc : E.confirms c)
    (hno : ∀ j ∈ pre, j ≠ E.KeyArrowUp ∧ j ≠ E.KeyArrowDown)
    (hd : (adapt s).StringerDefault = some d)
    (hk : (adapt s).StringerOptions[k]? = some item)
    (hlabel : item.String = d.String)
    (hfirst : ∀ j, j < k →
      ((adapt s).StringerOptions[j]?).map Stringer.String ≠ some d.String) :
    (Prompt E s (pre.map ReadResult.rune ++ ReadResult.rune c :: rest)).outcome
      = Outcome.returned (answerOf d) none ∧
    (answerOf d).label = item.String ∧
    (Prompt E s (pre.map ReadResult.rune ++ ReadResult.rune c :: rest)).s.selectedIndex
      = (k : Int) ∧
    (s.StringerOptions = [] → s.StringerDefault = none →
      (Prompt E s (pre.map ReadResult.rune ++ ReadResult.rune c :: rest)).outcome
        = Outcome.returned (answerOf item) none) := by
  have hout := Prompt_default_answer E s pre c rest hne hR hpre hc hno
  rw [hd] at hout
  have hsel : (Prompt E s (pre.map ReadResult.rune ++ ReadResult.rune c :: rest)).s.selectedIndex
      = (k : Int) := by
    rw [(Prompt_confirmed E s pre c rest hne hR hpre hc).2.1,
      (afterKeys_no_arrow E pre (awaiting s) hno).1]
    exact initialSel_first (adapt s) d k hd (by rw [hk]; simp [hlabel]) hfirst
  refine ⟨hout, by rw [answerOf_label, hlabel], hsel, ?_⟩
  intro hS hD
  have hO : s.Options ≠ [] := by
    intro hO
    rw [adapt_of_no_labels s hO] at hne
    exact hne hS
  obtain ⟨a1, a2⟩ := adapt_of_labels s hS hO
  rw [a2] at hd
  rw [a1] at hk
  have hd2 : d = Stringer.ptrOption { value := s.Default } := by
    split_ifs at hd with hcond
    · exact (Option.some.inj hd).symm
    · rw [hD] at hd; cases hd
  have hmem := List.getElem?_mem hk
  obtain ⟨o, -, ho⟩ := List.mem_map.1 hmem
  have : item = d := by
    subst hd2
    subst ho
    simp only [Stringer.String, option.String] at hlabel
    rw [hlabel]
  rw [this]
  exact hout

theorem Prompt_untouched_enter_witness :
    (Prompt stdEnv
        (labelled [Stringer.other 1 "a", Stringer.other 2 "b"] (some (Stringer.other 99 "b")))
        ([63].map ReadResult.rune ++ ReadResult.rune 13 :: [])).outcome
      = Outcome.returned (answerOf (Stringer.other 99 "b")) none ∧
    (answerOf (Stringer.other 99 "b")).label = (Stringer.other 2 "b").String ∧
    (Prompt stdEnv
        (labelled [Stringer.other 1 "a", Stringer.other 2 "b"] (some (Stringer.other 99 "b")))
        ([63].map ReadResult.rune ++ ReadResult.rune 13 :: [])).s.selectedIndex = ((1 : Nat) : Int) ∧
    ((labelled [Stringer.other 1 "a", Stringer.other 2 "b"]
        (some (Stringer.other 99 "b"))).StringerOptions = [] →
      (labelled [Stringer.other 1 "a", Stringer.other 2 "b"]
        (some (Stringer.other 99 "b"))).StringerDefault = none →
      (Prompt stdEnv
        (labelled [Stringer.other 1 "a", Stringer.other 2 "b"] (some (Stringer.other 99 "b")))
        ([63].map ReadResult.rune ++ ReadResult.rune 13 :: [])).outcome
        = Outcome.returned (answerOf (Stringer.other 2 "b")) none) :=
  Prompt_untouched_enter stdEnv
    (labelled [Stringer.other 1 "a", Stringer.other 2 "b"] (some (Stringer.other 99 "b")))
    [63] 13 [] (Stringer.other 99 "b") (Stringer.other 2 "b") 1
    (by decide) rfl (by decide) (by decide) (by decide) rfl rfl rfl (by decide)

/-- C4: for a non-empty option list whose first frame renders, once an arrow
key occurs among the keys before the confirming key (the arrow codes differing
from the Enter code), useDefault is false and Prompt returns the item at the
final selectedIndex, whatever default is configured; Arrow-Down followed by
Arrow-Up brings selectedIndex back to its initial value and the answer is
still the item at that index. -/
theorem Prompt_after_navigation (E : Env) (s : Select) (pre : List Rune) (c : Rune)
    (rest : List ReadResult)
    (hne : (adapt s).StringerOptions ≠ [])
    (hR : E.Render (initialFrame (start s)) = none)
    (hpre : ∀ k ∈ pre, ¬ E.terminates k) (hc : E.confirms c)
    (hu : E.KeyArrowUp ≠ E.KeyEnter) (hd : E.KeyArrowDown ≠ E.KeyEnter)
    (harrow : ∃ k ∈ pre, k = E.KeyArrowUp ∨ k = E.KeyArrowDown) :
    (Prompt E s (pre.map ReadResult.rune ++ ReadResult.rune c :: rest)).s.useDefault = false ∧
    (∃ item,
      index? (Prompt E s (pre.map ReadResult.rune ++ ReadResult.rune c :: rest)).s.StringerOptions
        (Prompt E s (pre.map ReadResult.rune ++ ReadResult.rune c :: rest)).s.selectedIndex
          = some item ∧
      (Prompt E s (pre.map ReadResult.rune ++ ReadResult.rune c :: rest)).outcome
        = Outcome.returned (answerOf item) none) ∧
    (pre = [E.KeyArrowDown, E.KeyArrowUp] → E.KeyArrowDown ≠ E.KeyArrowUp →
      (Prompt E s (pre.map ReadResult.rune ++ ReadResult.rune c :: rest)).s.selectedIndex
        = initialSel (adapt s)) := by
  have hf := afterKeys_arrow E pre (awaiting s) hu hd harrow
  obtain ⟨-, h2, -⟩ := Prompt_confirmed E s pre c rest hne hR hpre hc
  obtain ⟨item, i1, -, i2⟩ := Prompt_index_answer E s pre c rest hne hR hpre hc hf
  refine ⟨by rw [h2]; exact hf, ⟨item, ?_, i2⟩, ?_⟩
  · rw [(Prompt_config E s _).1]; exact i1
  · intro hp hud
    rw [h2, hp]
    exact OnChange_down_up E (awaiting s) (awaiting_inRange s hne) hu hd hud

theorem Prompt_after_navigation_witness :
    (Prompt stdEnv
        (labelled [Stringer.other 1 "a", Stringer.other 2 "b"] (some (Stringer.other 99 "b")))
        ([14, 16].map ReadResult.rune ++ ReadResult.rune 13 :: [])).outcome
      = Outcome.returned (Value.stringer (Stringer.other 2 "b")) none ∧
    (Prompt stdEnv
        (labelled [Stringer.other 1 "a", Stringer.other 2 "b"] (some (Stringer.other 99 "b")))
        ([14, 16].map ReadResult.rune ++ ReadResult.rune 13 :: [])).s.selectedIndex
      = initialSel (adapt
          (labelled [Stringer.other 1 "a", Stringer.other 2 "b"] (some (Stringer.other 99 "b")))) :=
  ⟨by decide,
   (Prompt_after_navigation stdEnv
      (labelled [Stringer.other 1 "a", Stringer.other 2 "b"] (some (Stringer.other 99 "b")))
      [14, 16] 13 [] (by decide) rfl (by decide) (by decide) (by decide) (by decide)
      (by decide)).2.2 rfl (by decide)⟩

/-- C5: for an option list of any length (so for every length above one), with
the arrow codes distinct from each other and from the Enter code, OnChange
with Arrow-Up sets selectedIndex to `len - 1` at index 0 and
decrements it by one at every other index; OnChange with Arrow-Down sets it to
0 at index `len - 1` and increments it by one at every other index; for an
index within the list both calls return. -/
theorem OnChange_wraparound (E : Env) (s : Select) (line : List Char) (pos : Int)
    (hu : E.KeyArrowUp ≠ E.KeyEnter) (hd : E.KeyArrowDown ≠ E.KeyEnter)
    (hud : E.KeyArrowDown ≠ E.KeyArrowUp) :
    (OnChange E s line pos E.KeyArrowUp).s.selectedIndex
      = (if s.selectedIndex = 0 then (s.StringerOptions.length : Int) - 1
         else s.selectedIndex - 1) ∧
    (OnChange E s line pos E.KeyArrowDown).s.selectedIndex
      = (if s.selectedIndex = (s.StringerOptions.length : Int) - 1 then 0
         else s.selectedIndex + 1) ∧
    (InRange s →
      (OnChange E s line pos E.KeyArrowUp).ret ≠ none ∧
      (OnChange E s line pos E.KeyArrowDown).ret ≠ none) := by
  refine ⟨?_, ?_, ?_⟩
  · unfold OnChange
    simp only [hu, if_false, if_true]
    split_ifs <;> rfl
  · unfold OnChange
    simp only [hd, hud, if_false, if_true]
    split_ifs <;> rfl
  · intro hs
    obtain ⟨r1, h1⟩ := OnChange_returns E s line pos E.KeyArrowUp hs
    obtain ⟨r2, h2⟩ := OnChange_returns E s line pos E.KeyArrowDown hs
    rw [h1, h2]
    exact ⟨Option.some_ne_none _, Option.some_ne_none _⟩

theorem OnChange_wraparound_witness :
    (OnChange stdEnv (labelled [Stringer.other 1 "a", Stringer.other 2 "b",
        Stringer.other 3 "c"] none) [] 0 stdEnv.KeyArrowUp).s.selectedIndex
      = (if (labelled [Stringer.other 1 "a", Stringer.other 2 "b",
            Stringer.other 3 "c"] none).selectedIndex = 0
         then ((labelled [Stringer.other 1 "a", Stringer.other 2 "b",
            Stringer.other 3 "c"] none).StringerOptions.length : Int) - 1
         else (labelled [Stringer.other 1 "a", Stringer.other 2 "b",
            Stringer.other 3 "c"] none).selectedIndex - 1) ∧
    (OnChange stdEnv (labelled [Stringer.other 1 "a", Stringer.other 2 "b",
        Stringer.other 3 "c"] none) [] 0 stdEnv.KeyArrowUp).s.selectedIndex = 2 :=
  ⟨(OnChange_wraparound stdEnv (labelled [Stringer.other 1 "a", Stringer.other 2 "b",
      Stringer.other 3 "c"] none) [] 0 (by decide) (by decide) (by decide)).1,
   by decide⟩

/-- C6: for a non-empty option list, the selectedIndex with which Prompt
awaits its first key is the smallest index whose item has the label of the
configured default when there is a default and some item has its label, and
is 0 when there is no default or no item has its label; two prompt values
whose option labels and default label agree get the same initial index. -/
theorem Prompt_initial_index (E : Env) (s : Select)
    (hne : (adapt s).StringerOptions ≠ []) :
    (∀ d, (adapt s).StringerDefault = some d →
      (∃ o ∈ (adapt s).StringerOptions, o.String = d.String) →
      ∃ i : Nat, (Prompt E s []).s.selectedIndex = (i : Int) ∧
        ((adapt s).StringerOptions[i]?).map Stringer.String = some d.String ∧
        ∀ j, j < i →
          ((adapt s).StringerOptions[j]?).map Stringer.String ≠ some d.String) ∧
    (((adapt s).StringerDefault = none ∨
        ∃ d, (adapt s).StringerDefault = some d ∧
          ∀ o ∈ (adapt s).StringerOptions, o.String ≠ d.String) →
      (Prompt E s []).s.selectedIndex = 0) ∧
    (∀ t : Select,
      (adapt t).StringerOptions.map Stringer.String
        = (adapt s).StringerOptions.map Stringer.String →
      (adapt t).StringerDefault.map Stringer.String
        = (adapt s).StringerDefault.map Stringer.String →
      (Prompt E t []).s.selectedIndex = (Prompt E s []).s.selectedIndex) := by
  have hsel := Prompt_nil_selectedIndex E s hne
  refine ⟨?_, ?_, ?_⟩
  · intro d hd hex
    rw [hsel]
    exact initialSel_match (adapt s) d hd hex
  · intro h
    rw [hsel]
    exact initialSel_no_match (adapt s) h
  · intro t ho hd
    have hnet : (adapt t).StringerOptions ≠ [] := by
      intro h0
      rw [h0] at ho
      exact hne (List.map_eq_nil_iff.1 ho.symm)
    rw [hsel, Prompt_nil_selectedIndex E t hnet]
    exact initialSel_labels (adapt t) (adapt s) ho hd

theorem Prompt_initial_index_witness :
    (∃ i : Nat, (Prompt stdEnv (plain ["a", "b", "c", "b"] "b") []).s.selectedIndex = (i : Int) ∧
      ((adapt (plain ["a", "b", "c", "b"] "b")).StringerOptions[i]?).map Stringer.String
        = some (Stringer.ptrOption { value := "b" }).String ∧
      ∀ j, j < i →
        ((adapt (plain ["a", "b", "c", "b"] "b")).StringerOptions[j]?).map Stringer.String
          ≠ some (Stringer.ptrOption { value := "b" }).String) ∧
    (Prompt stdEnv (plain ["a", "b", "c", "b"] "b") []).s.selectedIndex = 1 :=
  ⟨(Prompt_initial_index stdEnv (plain ["a", "b", "c", "b"] "b") (by decide)).1
      (Stringer.ptrOption { value := "b" }) rfl (by decide),
   by decide⟩

/-- C7: for a non-empty option list whose first frame renders, when the keys
before the interrupt key do not end the loop and the interrupt code is neither
carriage return nor newline, Prompt returns the empty answer with
InterruptErr, whatever keys came before. -/
theorem Prompt_interrupt (E : Env) (s : Select) (pre : List Rune) (rest : List ReadResult)
    (hne : (adapt s).StringerOptions ≠ [])
    (hR : E.Render (initialFrame (start s)) = none)
    (hpre : ∀ k ∈ pre, ¬ E.terminates k)
    (h13 : E.KeyInterrupt ≠ 13) (h10 : E.KeyInterrupt ≠ 10) :
    (Prompt E s (pre.map ReadResult.rune ++ ReadResult.rune E.KeyInterrupt :: rest)).outcome
      = Outcome.returned (Value.str "") (some Err.InterruptErr) :=
  (loop_interrupted E s pre rest hne hR hpre h13 h10).1

theorem Prompt_interrupt_witness :
    (Prompt stdEnv (plain ["a", "b", "c"] "b")
        ([14, 63, 16, 16].map ReadResult.rune
          ++ ReadResult.rune stdEnv.KeyInterrupt :: [ReadResult.rune 13])).outcome
      = Outcome.returned (Value.str "") (some Err.InterruptErr) :=
  Prompt_interrupt stdEnv (plain ["a", "b", "c"] "b") [14, 63, 16, 16] [ReadResult.rune 13]
    (by decide) rfl (by decide) (by decide) (by decide)

/-- C8: when the end-of-transmission code differs from the interrupt code,
Prompt run on any sequence of read results followed by end of transmission
returns the same answer and error, leaves the same prompt value and makes the
same calls as Prompt run on that sequence followed by carriage return or by
newline. -/
theorem Prompt_eot_as_enter (E : Env) (s : Select) (pre : List ReadResult)
    (rest : List ReadResult) (c : Rune)
    (heot : E.KeyEndTransmission ≠ E.KeyInterrupt) (hc : c = 13 ∨ c = 10) :
    (Prompt E s (pre ++ ReadResult.rune E.KeyEndTransmission :: rest)).outcome
      = (Prompt E s (pre ++ ReadResult.rune c :: rest)).outcome ∧
    (Prompt E s (pre ++ ReadResult.rune E.KeyEndTransmission :: rest)).s
      = (Prompt E s (pre ++ ReadResult.rune c :: rest)).s ∧
    (Prompt E s (pre ++ ReadResult.rune E.KeyEndTransmission :: rest)).events
      = (Prompt E s (pre ++ ReadResult.rune c :: rest)).events := by
  apply Prompt_congr
  intro st
  apply readLoop_break_congr
  · exact Or.inr (Or.inr ⟨rfl, heot⟩)
  · rcases hc with h | h
    · exact Or.inl h
    · exact Or.inr (Or.inl h)

theorem Prompt_eot_as_enter_witness :
    (Prompt stdEnv (plain ["a", "b", "c"] "b")
        ([ReadResult.rune 14, ReadResult.rune 63]
          ++ ReadResult.rune stdEnv.KeyEndTransmission :: [])).outcome
      = (Prompt stdEnv (plain ["a", "b", "c"] "b")
        ([ReadResult.rune 14, ReadResult.rune 63] ++ ReadResult.rune 10 :: [])).outcome ∧
    (Prompt stdEnv (plain ["a", "b", "c"] "b")
        ([ReadResult.rune 14, ReadResult.rune 63] ++ ReadResult.rune 10 :: [])).outcome
      = Outcome.returned (Value.str "c") none :=
  ⟨(Prompt_eot_as_enter stdEnv (plain ["a", "b", "c"] "b")
      [ReadResult.rune 14, ReadResult.rune 63] [] 10 (by decide) (by decide)).1,
   by decide⟩

/-- C9, as stated, fails: with plain labels `a`, `b` and the default `z`, an
untouched Enter returns `z`, selectedIndex is 0, the option at index 0 is
labelled `a`, and no option is labelled `z`. -/
theorem Prompt_enter_unmatched_default :
    (Prompt stdEnv (plain ["a", "b"] "z") [ReadResult.rune 13]).outcome
      = Outcome.returned (Value.str "z") none ∧
    (Prompt stdEnv (plain ["a", "b"] "z") [ReadResult.rune 13]).s.selectedIndex = 0 ∧
    (index? (Prompt stdEnv (plain ["a", "b"] "z") [ReadResult.rune 13]).s.StringerOptions
        (Prompt stdEnv (plain ["a", "b"] "z") [ReadResult.rune 13]).s.selectedIndex).map
          Stringer.String = some "a" ∧
    (Value.str "z").label
      ∉ (Prompt stdEnv (plain ["a", "b"] "z") [ReadResult.rune 13]).s.StringerOptions.map
          Stringer.String := by
  decide

/-- C9, amended: on carriage return or newline, for a non-empty option list
whose first frame renders and keys before it that do not end the loop, when no
default is configured, or the default has the label of some option, or an
arrow key was pressed (the arrow codes differing from the Enter code), Prompt
returns an answer with a nil error whose label is the label of the option at
the final selectedIndex, an item of the option list. -/
theorem Prompt_enter_label (E : Env) (s : Select) (pre : List Rune) (c : Rune)
    (rest : List ReadResult)
    (hne : (adapt s).StringerOptions ≠ [])
    (hR : E.Render (initialFrame (start s)) = none)
    (hpre : ∀ k ∈ pre, ¬ E.terminates k) (hc : c = 13 ∨ c = 10)
    (hdef : ∀ d, (adapt s).StringerDefault = some d →
      (∃ o ∈ (adapt s).StringerOptions, o.String = d.String) ∨
      (E.KeyArrowUp ≠ E.KeyEnter ∧ E.KeyArrowDown ≠ E.KeyEnter ∧
        ∃ k ∈ pre, k = E.KeyArrowUp ∨ k = E.KeyArrowDown)) :
    ∃ item v,
      index? (adapt s).StringerOptions
        (Prompt E s (pre.map ReadResult.rune ++ ReadResult.rune c :: rest)).s.selectedIndex
          = some item ∧
      item ∈ (adapt s).StringerOptions ∧
      (Prompt E s (pre.map ReadResult.rune ++ ReadResult.rune c :: rest)).outcome
        = Outcome.returned v none ∧
      v.label = item.String := by
  have hc2 : E.confirms c := by
    rcases hc with h | h
    · exact Or.inl h
    · exact Or.inr (Or.inl h)
  cases hb : (afterKeys E (awaiting s) pre).useDefault with
  | false =>
    obtain ⟨item, h1, h2, h3⟩ := Prompt_index_answer E s pre c rest hne hR hpre hc2 hb
    exact ⟨item, answerOf item, h1, h2, h3, answerOf_label item⟩
  | true =>
    obtain ⟨p1, p2, -⟩ := Prompt_confirmed E s pre c rest hne hR hpre hc2
    obtain ⟨k1, k2⟩ := afterKeys_config E pre (awaiting s)
    have o1 : (afterKeys E (awaiting s) pre).StringerOptions = (adapt s).StringerOptions := k1
    have o2 : (afterKeys E (awaiting s) pre).StringerDefault = (adapt s).StringerDefault := k2
    have hidx : (afterKeys E (awaiting s) pre).selectedIndex = initialSel (adapt s) :=
      afterKeys_keeps E pre (awaiting s) hb
    rw [p2, hidx]
    rw [p1]
    unfold chooseVal
    rw [hb, o1, o2]
    cases hd : (adapt s).StringerDefault with
    | none =>
      rw [initialSel_no_match (adapt s) (Or.inl hd)]
      refine ⟨_, _, index?_zero _ hne, List.head_mem hne, ?_, answerOf_label _⟩
      simp [index?_zero _ hne]
    | some d =>
      rcases hdef d hd with hex | ⟨hu, hdn, harrow⟩
      · obtain ⟨i, hi, hlab, -⟩ := initialSel_match (adapt s) d hd hex
        rw [hi, index?_natCast]
        cases hx : (adapt s).StringerOptions[i]? with
        | none => rw [hx] at hlab; cases hlab
        | some item =>
          rw [hx] at hlab
          simp only [Option.map_some', Option.some.injEq] at hlab
          refine ⟨item, answerOf d, rfl, List.getElem?_mem hx, rfl, ?_⟩
          rw [answerOf_label, hlab]
      · rw [afterKeys_arrow E pre (awaiting s) hu hdn harrow] at hb
        cases hb

theorem Prompt_enter_label_witness :
    ∃ item v,
      index? (adapt (plain ["a", "b", "c"] "c")).StringerOptions
        (Prompt stdEnv (plain ["a", "b", "c"] "c")
          ([63].map ReadResult.rune ++ ReadResult.rune 13 :: [])).s.selectedIndex
          = some item ∧
      item ∈ (adapt (plain ["a", "b", "c"] "c")).StringerOptions ∧
      (Prompt stdEnv (plain ["a", "b", "c"] "c")
          ([63].map ReadResult.rune ++ ReadResult.rune 13 :: [])).outcome
        = Outcome.returned v none ∧
      v.label = item.String :=
  Prompt_enter_label stdEnv (plain ["a", "b", "c"] "c") [63] 13 []
    (by decide) rfl (by decide) (by decide)
    (fun d hd => Or.inl ⟨Stringer.ptrOption { value := "c" }, by decide,
      by
        have h : (adapt (plain ["a", "b", "c"] "c")).StringerDefault
            = some (Stringer.ptrOption { value := "c" }) := by decide
        rw [h] at hd
        cases hd
        rfl⟩)

/-- C10: the option list Prompt works on is the arbitrary-item list itself
when that list is non-empty, the plain labels being ignored; when it is empty
and there are plain labels, the option list has the length of the plain-label
list and its i-th item is labelled with the i-th plain label. -/
theorem Prompt_normalises (E : Env) (s : Select) (reads : List ReadResult) :
    (s.StringerOptions ≠ [] →
      (Prompt E s reads).s.StringerOptions = s.StringerOptions) ∧
    (s.StringerOptions = [] → s.Options ≠ [] →
      (Prompt E s reads).s.StringerOptions.length = s.Options.length ∧
      ∀ i : Nat,
        ((Prompt E s reads).s.StringerOptions[i]?).map Stringer.String = s.Options[i]?) := by
  rw [(Prompt_config E s reads).1]
  constructor
  · intro hS
    rw [adapt_of_items s hS]
  · intro hS hO
    rw [(adapt_of_labels s hS hO).1]
    refine ⟨by simp, ?_⟩
    intro i
    simp only [List.getElem?_map, Option.map_map]
    cases s.Options[i]? <;> rfl

theorem Prompt_normalises_witness :
    (Prompt stdEnv
        { plain ["x", "y"] "" with StringerOptions := [Stringer.other 1 "a"] }
        [ReadResult.rune 13]).s.StringerOptions = [Stringer.other 1 "a"] ∧
    (Prompt stdEnv (plain ["x", "y"] "") [ReadResult.rune 13]).s.StringerOptions.length
      = (plain ["x", "y"] "").Options.length :=
  ⟨(Prompt_normalises stdEnv
      { plain ["x", "y"] "" with StringerOptions := [Stringer.other 1 "a"] }
      [ReadResult.rune 13]).1 (by decide),
   ((Prompt_normalises stdEnv (plain ["x", "y"] "") [ReadResult.rune 13]).2 rfl
      (by decide)).1⟩

theorem Prompt_resolved (E : Env) (s : Select) (pre : List Rune) (c : Rune)
    (rest : List ReadResult)
    (hne : (adapt s).StringerOptions ≠ [])
    (hR : E.Render (initialFrame (start s)) = none)
    (hpre : ∀ k ∈ pre, ¬ E.terminates k) (hc : E.confirms c) :
    ∃ val, (val ∈ (adapt s).StringerOptions ∨ (adapt s).StringerDefault = some val) ∧
      (Prompt E s (pre.map ReadResult.rune ++ ReadResult.rune c :: rest)).outcome
        = Outcome.returned (answerOf val) none := by
  cases hb : (afterKeys E (awaiting s) pre).useDefault with
  | false =>
    obtain ⟨item, -, h2, h3⟩ := Prompt_index_answer E s pre c rest hne hR hpre hc hb
    exact ⟨item, Or.inl h2, h3⟩
  | true =>
    obtain ⟨p1, -, -⟩ := Prompt_confirmed E s pre c rest hne hR hpre hc
    obtain ⟨k1, k2⟩ := afterKeys_config E pre (awaiting s)
    have o1 : (afterKeys E (awaiting s) pre).StringerOptions = (adapt s).StringerOptions := k1
    have o2 : (afterKeys E (awaiting s) pre).StringerDefault = (adapt s).StringerDefault := k2
    rw [p1]
    unfold chooseVal
    rw [hb, o1, o2]
    cases hd : (adapt s).StringerDefault with
    | none =>
      refine ⟨(adapt s).StringerOptions.head hne, Or.inl (List.head_mem hne), ?_⟩
      simp [index?_zero _ hne]
    | some d => exact ⟨d, Or.inr rfl, rfl⟩

theorem adapt_items_plain (s : Select) (hS : s.StringerOptions = []) (hD : s.StringerDefault = none) :
    (∀ v ∈ (adapt s).StringerOptions, ∃ o, v = Stringer.ptrOption o) ∧
    (∀ v, (adapt s).StringerDefault = some v → ∃ o, v = Stringer.ptrOption o) := by
  by_cases hO : s.Options = []
  · rw [adapt_of_no_labels s hO, hS, hD]
    constructor <;> intro v hv <;> cases hv
  · obtain ⟨a1, a2⟩ := adapt_of_labels s hS hO
    rw [a1, a2]
    constructor
    · intro v hv
      obtain ⟨o, -, ho⟩ := List.mem_map.1 hv
      exact ⟨_, ho.symm⟩
    · intro v hv
      split_ifs at hv
      · exact ⟨_, (Option.some.inj hv).symm⟩
      · rw [hD] at hv; cases hv

/-- C11, as stated, fails when the options are arbitrary items: with items
labelled `a`, `b`, the plain-text default `b` and no default item, Prompt
synthesises no default item, starts at index 0 and an untouched Enter returns
the first item. -/
theorem plain_default_ignored_with_items :
    ({ labelled [Stringer.other 1 "a", Stringer.other 2 "b"] none with
        Default := "b" } : Select).Default ≠ "" ∧
    ({ labelled [Stringer.other 1 "a", Stringer.other 2 "b"] none with
        Default := "b" } : Select).StringerDefault = none ∧
    (Prompt stdEnv
        { labelled [Stringer.other 1 "a", Stringer.other 2 "b"] none with Default := "b" }
        []).s.StringerDefault = none ∧
    (Prompt stdEnv
        { labelled [Stringer.other 1 "a", Stringer.other 2 "b"] none with Default := "b" }
        []).s.selectedIndex = 0 ∧
    ((Prompt stdEnv
        { labelled [Stringer.other 1 "a", Stringer.other 2 "b"] none with Default := "b" }
        []).s.StringerOptions[1]?).map Stringer.String = some "b" ∧
    (Prompt stdEnv
        { labelled [Stringer.other 1 "a", Stringer.other 2 "b"] none with Default := "b" }
        [ReadResult.rune 13]).outcome
      = Outcome.returned (Value.stringer (Stringer.other 1 "a")) none := by
  decide

/-- C11, amended: with a non-empty plain-text default and no default item,
when the options are plain labels (no arbitrary items) Prompt synthesises a
default item labelled with that text and its initial selectedIndex is the
first position of that text among the labels, 0 when it is not among them;
when arbitrary items are supplied no default item is synthesised and the
initial selectedIndex is 0. -/
theorem Prompt_plain_default (E : Env) (s : Select) (reads : List ReadResult)
    (hD : s.StringerDefault = none) (hdef : s.Default ≠ "") :
    (s.StringerOptions = [] → s.Options ≠ [] →
      (∃ d, (Prompt E s reads).s.StringerDefault = some d ∧ d.String = s.Default) ∧
      (∀ k : Nat, s.Options[k]? = some s.Default →
        (∀ j, j < k → s.Options[j]? ≠ some s.Default) →
        (Prompt E s []).s.selectedIndex = (k : Int)) ∧
      ((∀ o ∈ s.Options, o ≠ s.Default) → (Prompt E s []).s.selectedIndex = 0)) ∧
    (s.StringerOptions ≠ [] →
      (Prompt E s reads).s.StringerDefault = none ∧
      (Prompt E s []).s.selectedIndex = 0) := by
  constructor
  · intro hS hO
    obtain ⟨a1, a2⟩ := adapt_of_labels s hS hO
    rw [if_pos ⟨hD, hdef⟩] at a2
    have hne : (adapt s).StringerOptions ≠ [] := by
      rw [a1]; simpa using hO
    have hmap : ∀ j : Nat, ((adapt s).StringerOptions[j]?).map Stringer.String = s.Options[j]? := by
      intro j
      rw [a1]
      simp only [List.getElem?_map, Option.map_map]
      cases s.Options[j]? <;> rfl
    refine ⟨⟨_, (Prompt_config E s reads).2.trans a2, rfl⟩, ?_, ?_⟩
    · intro k hk hfirst
      rw [Prompt_nil_selectedIndex E s hne]
      apply initialSel_first (adapt s) _ k a2
      · rw [hmap, hk]; rfl
      · intro j hj
        rw [hmap]
        exact hfirst j hj
    · intro hno
      rw [Prompt_nil_selectedIndex E s hne]
      apply initialSel_no_match
      refine Or.inr ⟨_, a2, ?_⟩
      intro o ho
      rw [a1] at ho
      obtain ⟨l, hl, rfl⟩ := List.mem_map.1 ho
      exact hno l hl
  · intro hS
    have ha := adapt_of_items s hS
    have hne : (adapt s).StringerOptions ≠ [] := by rw [ha]; exact hS
    refine ⟨?_, ?_⟩
    · rw [(Prompt_config E s reads).2, ha]; exact hD
    · rw [Prompt_nil_selectedIndex E s hne]
      exact initialSel_no_match _ (Or.inl (by rw [ha]; exact hD))

theorem Prompt_plain_default_witness :
    (∃ d, (Prompt stdEnv (plain ["a", "b", "c", "b"] "b") [ReadResult.rune 13]).s.StringerDefault
        = some d ∧ d.String = (plain ["a", "b", "c", "b"] "b").Default) ∧
    (Prompt stdEnv (plain ["a", "b", "c", "b"] "b") []).s.selectedIndex = ((1 : Nat) : Int) :=
  ⟨((Prompt_plain_default stdEnv (plain ["a", "b", "c", "b"] "b") [ReadResult.rune 13]
      rfl (by decide)).1 rfl (by decide)).1,
   ((Prompt_plain_default stdEnv (plain ["a", "b", "c", "b"] "b") [ReadResult.rune 13]
      rfl (by decide)).1 rfl (by decide)).2.1 1 (by decide) (by decide)⟩

/-- C12, as stated, fails for arbitrary labelled items: with items labelled
`a`, `b`, Arrow-Down then Enter returns the second item itself, which is not a
string. -/
theorem Prompt_returns_item_not_string :
    (Prompt stdEnv (labelled [Stringer.other 1 "a", Stringer.other 2 "b"] none)
        [ReadResult.rune 14, ReadResult.rune 13]).outcome
      = Outcome.returned (Value.stringer (Stringer.other 2 "b")) none ∧
    ∀ str : String,
      (Prompt stdEnv (labelled [Stringer.other 1 "a", Stringer.other 2 "b"] none)
        [ReadResult.rune 14, ReadResult.rune 13]).outcome
      ≠ Outcome.returned (Value.str str) none := by
  have h : (Prompt stdEnv (labelled [Stringer.other 1 "a", Stringer.other 2 "b"] none)
        [ReadResult.rune 14, ReadResult.rune 13]).outcome
      = Outcome.returned (Value.stringer (Stringer.other 2 "b")) none := by decide
  refine ⟨h, ?_⟩
  intro str hs
  rw [h] at hs
  cases hs

/-- C12, amended: for a non-empty option list whose first frame renders and
keys that end in a confirmation, Prompt returns, with a nil error, the
resolved item (an item of the list or the configured default): as the string
of its label when that item is a plain-label option, in particular whenever
options and default are given as plain labels, and as the item itself when it
is any other labelled value. -/
theorem Prompt_response_type (E : Env) (s : Select) (pre : List Rune) (c : Rune)
    (rest : List ReadResult)
    (hne : (adapt s).StringerOptions ≠ [])
    (hR : E.Render (initialFrame (start s)) = none)
    (hpre : ∀ k ∈ pre, ¬ E.terminates k) (hc : E.confirms c) :
    ∃ val, (val ∈ (adapt s).StringerOptions ∨ (adapt s).StringerDefault = some val) ∧
      (Prompt E s (pre.map ReadResult.rune ++ ReadResult.rune c :: rest)).outcome
        = Outcome.returned (answerOf val) none ∧
      (∀ o, val = Stringer.ptrOption o → answerOf val = Value.str val.String) ∧
      (∀ i l, val = Stringer.other i l → answerOf val = Value.stringer val) ∧
      (s.StringerOptions = [] → s.StringerDefault = none →
        (Prompt E s (pre.map ReadResult.rune ++ ReadResult.rune c :: rest)).outcome
          = Outcome.returned (Value.str val.String) none) := by
  obtain ⟨val, hmem, hout⟩ := Prompt_resolved E s pre c rest hne hR hpre hc
  refine ⟨val, hmem, hout, ?_, ?_, ?_⟩
  · rintro o rfl; rfl
  · rintro i l rfl; rfl
  · intro hS hD
    obtain ⟨p1, p2⟩ := adapt_items_plain s hS hD
    have : ∃ o, val = Stringer.ptrOption o := by
      rcases hmem with h | h
      · exact p1 val h
      · exact p2 val h
    obtain ⟨o, rfl⟩ := this
    exact hout

theorem Prompt_response_type_witness :
    ∃ val, (val ∈ (adapt (plain ["a", "b", "c"] "b")).StringerOptions ∨
        (adapt (plain ["a", "b", "c"] "b")).StringerDefault = some val) ∧
      (Prompt stdEnv (plain ["a", "b", "c"] "b")
          ([14].map ReadResult.rune ++ ReadResult.rune 13 :: [])).outcome
        = Outcome.returned (answerOf val) none ∧
      (∀ o, val = Stringer.ptrOption o → answerOf val = Value.str val.String) ∧
      (∀ i l, val = Stringer.other i l → answerOf val = Value.stringer val) ∧
      ((plain ["a", "b", "c"] "b").StringerOptions = [] →
        (plain ["a", "b", "c"] "b").StringerDefault = none →
        (Prompt stdEnv (plain ["a", "b", "c"] "b")
          ([14].map ReadResult.rune ++ ReadResult.rune 13 :: [])).outcome
          = Outcome.returned (Value.str val.String) none) :=
  Prompt_response_type stdEnv (plain ["a", "b", "c"] "b") [14] 13 []
    (by decide) rfl (by decide) (by decide)

theorem chooseVal_resolved (st : Select) (hs : InRange st) :
    ∃ val, chooseVal st = some val ∧
      (val ∈ st.StringerOptions ∨ st.StringerDefault = some val) := by
  have hne : st.StringerOptions ≠ [] := by
    intro h
    have := hs.2
    rw [h] at this
    simp only [List.length_nil, Nat.cast_zero] at this
    exact absurd hs.1 (by omega)
  unfold chooseVal
  cases hb : st.useDefault with
  | false =>
    obtain ⟨x, hx, hmem⟩ := index?_isSome _ _ hs.1 hs.2
    exact ⟨x, by simp [hx], Or.inl hmem⟩
  | true =>
    cases hd : st.StringerDefault with
    | none =>
      exact ⟨st.StringerOptions.head hne, by simp [index?_zero _ hne], Or.inl (List.head_mem hne)⟩
    | some d => exact ⟨d, by simp, Or.inr rfl⟩

theorem readLoop_safe (E : Env) (reads : List ReadResult) (s : Select) (hs : InRange s) :
    (readLoop E s reads).exit ≠ LoopExit.panicked ∧
    InRange (readLoop E s reads).s ∧
    ((readLoop E s reads).exit = LoopExit.blocked →
      ∀ rd ∈ reads, ∃ k, rd = ReadResult.rune k ∧ ¬ E.terminates k) := by
  induction reads generalizing s with
  | nil =>
    refine ⟨by simp [readLoop], hs, ?_⟩
    intro _ rd hrd
    cases hrd
  | cons rd reads ih =>
    cases rd with
    | err e =>
      refine ⟨by simp [readLoop], hs, ?_⟩
      intro h
      simp [readLoop] at h
    | rune r =>
      by_cases ht : E.terminates r
      · have hex : (readLoop E s (ReadResult.rune r :: reads)).exit ≠ LoopExit.panicked ∧
            (readLoop E s (ReadResult.rune r :: reads)).exit ≠ LoopExit.blocked ∧
            (readLoop E s (ReadResult.rune r :: reads)).s = s := by
          rw [readLoop]
          unfold Env.terminates at ht
          split_ifs <;> first | (exfalso; tauto) | simp
        exact ⟨hex.1, by rw [hex.2.2]; exact hs, fun h => absurd h hex.2.1⟩
      · have hk := ht
        simp only [Env.terminates, not_or] at hk
        obtain ⟨v, hv⟩ := OnChange_returns E s [] 0 r hs
        obtain ⟨i1, i2, i3⟩ := ih (OnChange E s [] 0 r).s (OnChange_inRange E s [] 0 r hs)
        have hstep : readLoop E s (ReadResult.rune r :: reads)
            = { readLoop E (OnChange E s [] 0 r).s reads with
                events := Event.ReadRune ::
                  ((OnChange E s [] 0 r).events
                    ++ (readLoop E (OnChange E s [] 0 r).s reads).events) } := by
          rw [readLoop]
          simp only [hk.1, hk.2.1, hk.2.2.1, hk.2.2.2, or_self, if_false, hv]
        rw [hstep]
        refine ⟨i1, i2, ?_⟩
        intro hb rd hrd
        rcases List.mem_cons.1 hrd with rfl | hmem
        · exact ⟨r, rfl, ht⟩
        · exact i3 hb rd hmem

theorem Prompt_outcomes (E : Env) (s : Select) (reads : List ReadResult) :
    ((Prompt E s reads).outcome = Outcome.blocked ∧
      ∀ rd ∈ reads, ∃ k, rd = ReadResult.rune k ∧ ¬ E.terminates k) ∨
    (∃ val, (val ∈ (adapt s).StringerOptions ∨ (adapt s).StringerDefault = some val) ∧
      (Prompt E s reads).outcome = Outcome.returned (answerOf val) none) ∨
    (∃ e, (Prompt E s reads).outcome = Outcome.returned (Value.str "") (some e)) := by
  by_cases hne : (adapt s).StringerOptions = []
  · exact Or.inr (Or.inr ⟨_, (Prompt_empty E s reads hne).1⟩)
  · cases hR : E.Render (initialFrame (start s)) with
    | some err => exact Or.inr (Or.inr ⟨_, (Prompt_render_fails E s reads err hne hR).1⟩)
    | none =>
      obtain ⟨h1, -, -, -⟩ := Prompt_loop E s reads hne hR
      obtain ⟨s1, s2, s3⟩ := readLoop_safe E reads (awaiting s) (awaiting_inRange s hne)
      obtain ⟨c1, c2⟩ := readLoop_config E reads (awaiting s)
      rw [h1]
      cases hex : (readLoop E (awaiting s) reads).exit with
      | blocked => exact Or.inl ⟨rfl, s3 hex⟩
      | panicked => exact absurd hex s1
      | returned e => exact Or.inr (Or.inr ⟨e, rfl⟩)
      | broke =>
        obtain ⟨val, hv, hmem⟩ := chooseVal_resolved _ s2
        rw [c1, c2] at hmem
        refine Or.inr (Or.inl ⟨val, hmem, ?_⟩)
        simp only [hv]

theorem Prompt_read_error (E : Env) (s : Select) (pre : List Rune) (e : Err)
    (rest : List ReadResult)
    (hne : (adapt s).StringerOptions ≠ [])
    (hR : E.Render (initialFrame (start s)) = none)
    (hpre : ∀ k ∈ pre, ¬ E.terminates k) :
    (Prompt E s (pre.map ReadResult.rune ++ ReadResult.err e :: rest)).outcome
      = Outcome.returned (Value.str "") (some e) := by
  obtain ⟨h1, -, -, -⟩ :=
    Prompt_loop E s (pre.map ReadResult.rune ++ ReadResult.err e :: rest) hne hR
  obtain ⟨k1, -, -⟩ := readLoop_keys E pre (awaiting s) (awaiting_inRange s hne) hpre
    (ReadResult.err e :: rest)
  have k2 : (readLoop E (afterKeys E (awaiting s) pre) (ReadResult.err e :: rest)).exit
      = LoopExit.returned e := rfl
  rw [h1, k1, k2]

theorem answerOf_value (val : Stringer) (out : Outcome)
    (h : out = Outcome.returned (answerOf val) none) :
    (∃ o, val = Stringer.ptrOption o ∧ out = Outcome.returned (Value.str o.value) none) ∨
    (∃ i l, val = Stringer.other i l ∧
      out = Outcome.returned (Value.stringer (Stringer.other i l)) none) := by
  cases val with
  | ptrOption o => exact Or.inl ⟨o, rfl, h⟩
  | other i l => exact Or.inr ⟨i, l, rfl, h⟩

/-- C13: for every configuration and every script of key-read results, Prompt
either still waits for a key (only when no read result so far is an error or a
key that ends the loop), or returns with a nil error a resolved item (an item
of the list or the configured default: its label string when it is a
plain-label option, the item itself otherwise), or returns the empty answer
with an error.  With a non-empty list whose first frame renders, a confirming
key after keys that do not end the loop gives the resolved item with a nil
error, and a read error after such keys is returned unchanged with the empty
answer. -/
theorem Prompt_no_partial_results (E : Env) (s : Select) (reads : List ReadResult) :
    (((Prompt E s reads).outcome = Outcome.blocked ∧
        ∀ rd ∈ reads, ∃ k, rd = ReadResult.rune k ∧ ¬ E.terminates k) ∨
      (∃ val, (val ∈ (adapt s).StringerOptions ∨ (adapt s).StringerDefault = some val) ∧
        ((∃ o, val = Stringer.ptrOption o ∧
            (Prompt E s reads).outcome = Outcome.returned (Value.str o.value) none) ∨
          (∃ i l, val = Stringer.other i l ∧
            (Prompt E s reads).outcome
              = Outcome.returned (Value.stringer (Stringer.other i l)) none))) ∨
      (∃ e, (Prompt E s reads).outcome = Outcome.returned (Value.str "") (some e))) ∧
    (∀ (pre : List Rune) (c : Rune) (rest : List ReadResult),
      reads = pre.map ReadResult.rune ++ ReadResult.rune c :: rest →
      (∀ k ∈ pre, ¬ E.terminates k) → E.confirms c →
      (adapt s).StringerOptions ≠ [] →
      E.Render (initialFrame (start s)) = none →
      ∃ val, (val ∈ (adapt s).StringerOptions ∨ (adapt s).StringerDefault = some val) ∧
        ((∃ o, val = Stringer.ptrOption o ∧
            (Prompt E s reads).outcome = Outcome.returned (Value.str o.value) none) ∨
          (∃ i l, val = Stringer.other i l ∧
            (Prompt E s reads).outcome
              = Outcome.returned (Value.stringer (Stringer.other i l)) none))) ∧
    (∀ (pre : List Rune) (e : Err) (rest : List ReadResult),
      reads = pre.map ReadResult.rune ++ ReadResult.err e :: rest →
      (∀ k ∈ pre, ¬ E.terminates k) →
      (adapt s).StringerOptions ≠ [] →
      E.Render (initialFrame (start s)) = none →
      (Prompt E s reads).outcome = Outcome.returned (Value.str "") (some e)) := by
  refine ⟨?_, ?_, ?_⟩
  · rcases Prompt_outcomes E s reads with h | ⟨val, hmem, h⟩ | h
    · exact Or.inl h
    · exact Or.inr (Or.inl ⟨val, hmem, answerOf_value val _ h⟩)
    · exact Or.inr (Or.inr h)
  · intro pre c rest hreads hpre hc hne hR
    rw [hreads]
    obtain ⟨val, hmem, h⟩ := Prompt_resolved E s pre c rest hne hR hpre hc
    exact ⟨val, hmem, answerOf_value val _ h⟩
  · intro pre e rest hreads hpre hne hR
    rw [hreads]
    exact Prompt_read_error E s pre e rest hne hR hpre

theorem Prompt_no_partial_results_witness :
    (∃ val,
      (val ∈ (adapt (labelled [Stringer.other 1 "a", Stringer.other 2 "b"] none)).StringerOptions ∨
        (adapt (labelled [Stringer.other 1 "a", Stringer.other 2 "b"] none)).StringerDefault
          = some val) ∧
      ((∃ o, val = Stringer.ptrOption o ∧
          (Prompt stdEnv (labelled [Stringer.other 1 "a", Stringer.other 2 "b"] none)
            ([14, 63].map ReadResult.rune ++ ReadResult.rune 13 :: [])).outcome
            = Outcome.returned (Value.str o.value) none) ∨
        (∃ i l, val = Stringer.other i l ∧
          (Prompt stdEnv (labelled [Stringer.other 1 "a", Stringer.other 2 "b"] none)
            ([14, 63].map ReadResult.rune ++ ReadResult.rune 13 :: [])).outcome
            = Outcome.returned (Value.stringer (Stringer.other i l)) none))) ∧
    (Prompt stdEnv (labelled [Stringer.other 1 "a", Stringer.other 2 "b"] none)
        ([14, 63].map ReadResult.rune ++ ReadResult.rune 13 :: [])).outcome
      = Outcome.returned (Value.stringer (Stringer.other 2 "b")) none ∧
    (Prompt stdEnv (plain ["a", "b", "c"] "b")
        ([14, 63].map ReadResult.rune ++ ReadResult.rune 13 :: [])).outcome
      = Outcome.returned (Value.str "c") none ∧
    (Prompt stdEnv (plain ["a", "b", "c"] "b")
        ([14, 63].map ReadResult.rune
          ++ ReadResult.err (Err.external 5) :: [ReadResult.rune 13])).outcome
      = Outcome.returned (Value.str "") (some (Err.external 5)) :=
  ⟨(Prompt_no_partial_results stdEnv (labelled [Stringer.other 1 "a", Stringer.other 2 "b"] none)
      ([14, 63].map ReadResult.rune ++ ReadResult.rune 13 :: [])).2.1
      [14, 63] 13 [] rfl (by decide) (by decide) (by decide) rfl,
   by decide,
   by decide,
   (Prompt_no_partial_results stdEnv (plain ["a", "b", "c"] "b")
      ([14, 63].map ReadResult.rune
        ++ ReadResult.err (Err.external 5) :: [ReadResult.rune 13])).2.2
      [14, 63] (Err.external 5) [ReadResult.rune 13] rfl (by decide) (by decide) rfl⟩

theorem OnChange_down_mod (E : Env) (s : Select) (l : List Char) (p : Int) (hs : InRange s)
    (hde : E.KeyArrowDown ≠ E.KeyEnter) (hdu : E.KeyArrowDown ≠ E.KeyArrowUp) :
    (OnChange E s l p E.KeyArrowDown).s.selectedIndex
      = (s.selectedIndex + 1) % (s.StringerOptions.length : Int) := by
  obtain ⟨h0, h1⟩ := hs
  have hstep : (OnChange E s l p E.KeyArrowDown).s.selectedIndex
      = (if s.selectedIndex = (s.StringerOptions.length : Int) - 1 then 0
         else s.selectedIndex + 1) := by
    unfold OnChange
    simp only [hde, hdu, if_false, if_true]
    split_ifs <;> rfl
  rw [hstep]
  split_ifs with h
  · rw [h]; simp
  · rw [Int.emod_eq_of_lt (by omega) (by omega)]

theorem OnChange_up_mod (E : Env) (s : Select) (l : List Char) (p : Int) (hs : InRange s)
    (hue : E.KeyArrowUp ≠ E.KeyEnter) :
    (OnChange E s l p E.KeyArrowUp).s.selectedIndex
      = (s.selectedIndex - 1) % (s.StringerOptions.length : Int) := by
  obtain ⟨h0, h1⟩ := hs
  have hstep : (OnChange E s l p E.KeyArrowUp).s.selectedIndex
      = (if s.selectedIndex = 0 then (s.StringerOptions.length : Int) - 1
         else s.selectedIndex - 1) := by
    unfold OnChange
    simp only [hue, if_false, if_true]
    split_ifs <;> rfl
  rw [hstep]
  split_ifs with h
  · rw [h]
    have : ((0 : Int) - 1) % (s.StringerOptions.length : Int)
        = ((s.StringerOptions.length : Int) - 1) % (s.StringerOptions.length : Int) := by
      rw [← Int.add_mul_emod_self (a := (0 : Int) - 1) (b := 1)
        (c := (s.StringerOptions.length : Int))]
      congr 1
      ring
    rw [this, Int.emod_eq_of_lt (by omega) (by omega)]
  · rw [Int.emod_eq_of_lt (by omega) (by omega)]

theorem afterKeys_downs (E : Env) (n : Nat) (s : Select) (hs : InRange s)
    (hde : E.KeyArrowDown ≠ E.KeyEnter) (hdu : E.KeyArrowDown ≠ E.KeyArrowUp) :
    (afterKeys E s (List.replicate n E.KeyArrowDown)).selectedIndex
      = (s.selectedIndex + (n : Int)) % (s.StringerOptions.length : Int) := by
  induction n generalizing s with
  | zero =>
    simp only [List.replicate_zero, Nat.cast_zero, add_zero]
    rw [Int.emod_eq_of_lt hs.1 hs.2]
    rfl
  | succ n ih =>
    have h1 := ih (OnChange E s [] 0 E.KeyArrowDown).s
      (OnChange_inRange E s [] 0 E.KeyArrowDown hs)
    rw [(OnChange_config E s [] 0 E.KeyArrowDown).1, OnChange_down_mod E s [] 0 hs hde hdu,
      Int.emod_add_emod] at h1
    have h2 : afterKeys E s (List.replicate (n + 1) E.KeyArrowDown)
        = afterKeys E (OnChange E s [] 0 E.KeyArrowDown).s
            (List.replicate n E.KeyArrowDown) := rfl
    rw [h2, h1]
    congr 1
    push_cast
    ring

theorem afterKeys_ups (E : Env) (n : Nat) (s : Select) (hs : InRange s)
    (hue : E.KeyArrowUp ≠ E.KeyEnter) :
    (afterKeys E s (List.replicate n E.KeyArrowUp)).selectedIndex
      = (s.selectedIndex - (n : Int)) % (s.StringerOptions.length : Int) := by
  induction n generalizing s with
  | zero =>
    simp only [List.replicate_zero, Nat.cast_zero, sub_zero]
    rw [Int.emod_eq_of_lt hs.1 hs.2]
    rfl
  | succ n ih =>
    have h1 := ih (OnChange E s [] 0 E.KeyArrowUp).s
      (OnChange_inRange E s [] 0 E.KeyArrowUp hs)
    rw [(OnChange_config E s [] 0 E.KeyArrowUp).1, OnChange_up_mod E s [] 0 hs hue,
      sub_eq_add_neg, Int.emod_add_emod] at h1
    have h2 : afterKeys E s (List.replicate (n + 1) E.KeyArrowUp)
        = afterKeys E (OnChange E s [] 0 E.KeyArrowUp).s
            (List.replicate n E.KeyArrowUp) := rfl
    rw [h2, h1]
    congr 1
    push_cast
    ring

theorem presses_answer (E : Env) (s : Select) (n : Nat) (c : Rune) (rest : List ReadResult)
    (d : Stringer) (key : Rune) (i : Int)
    (hne : (adapt s).StringerOptions ≠ [])
    (hR : E.Render (initialFrame (start s)) = none)
    (hc : E.confirms c)
    (hd : (adapt s).StringerDefault = some d)
    (hkey : ¬ E.terminates key)
    (harrow : key = E.KeyArrowUp ∨ key = E.KeyArrowDown)
    (hue : E.KeyArrowUp ≠ E.KeyEnter) (hde : E.KeyArrowDown ≠ E.KeyEnter)
    (hidx : (afterKeys E (awaiting s) (List.replicate n key)).selectedIndex = i) :
    ∃ item, index? (adapt s).StringerOptions i = some item ∧
      (Prompt E s ((List.replicate n key).map ReadResult.rune
          ++ ReadResult.rune c :: rest)).s.selectedIndex = i ∧
      (Prompt E s ((List.replicate n key).map ReadResult.rune
          ++ ReadResult.rune c :: rest)).outcome
        = Outcome.returned (answerOf (if n = 0 then d else item)) none := by
  have hpre : ∀ k ∈ List.replicate n key, ¬ E.terminates k := by
    intro k hk
    rw [(List.mem_replicate.1 hk).2]
    exact hkey
  obtain ⟨-, p2, -⟩ := Prompt_confirmed E s (List.replicate n key) c rest hne hR hpre hc
  have hr := afterKeys_inRange E (List.replicate n key) (awaiting s) (awaiting_inRange s hne)
  have o1 : (afterKeys E (awaiting s) (List.replicate n key)).StringerOptions
      = (adapt s).StringerOptions := (afterKeys_config E _ (awaiting s)).1
  obtain ⟨item, hitem, -⟩ := index?_isSome _ _ hr.1 hr.2
  rw [o1, hidx] at hitem
  refine ⟨item, hitem, by rw [p2]; exact hidx, ?_⟩
  by_cases hn : n = 0
  · subst hn
    have h := Prompt_default_answer E s [] c rest hne hR (by simp) hc (by simp)
    rw [hd] at h
    simpa using h
  · have hf : (afterKeys E (awaiting s) (List.replicate n key)).useDefault = false :=
      afterKeys_arrow E _ (awaiting s) hue hde
        ⟨key, List.mem_replicate.2 ⟨hn, rfl⟩, harrow⟩
    obtain ⟨item2, q1, -, q2⟩ :=
      Prompt_index_answer E s (List.replicate n key) c rest hne hR hpre hc hf
    rw [p2, hidx, hitem] at q1
    cases q1
    simp only [hn, if_false]
    exact q2

/-- C14, as stated, fails in two ways.  With plain labels `a`, `b`, `a` and
the default `a`, the default matches the item at index 2, yet one Arrow-Down
and Enter return `b` (index 1), not the item at index `(2 + 1) mod 3`.  With
items `a`, `b` and a separate default value labelled `b` (index 1), zero
presses and Enter return the default value, not the item at index 1. -/
theorem arrow_presses_counterexample :
    ((adapt (plain ["a", "b", "a"] "a")).StringerOptions[2]?).map Stringer.String
      = (adapt (plain ["a", "b", "a"] "a")).StringerDefault.map Stringer.String ∧
    (Prompt stdEnv (plain ["a", "b", "a"] "a")
        ((List.replicate 1 stdEnv.KeyArrowDown).map ReadResult.rune
          ++ ReadResult.rune 13 :: [])).outcome
      = Outcome.returned (Value.str "b") none ∧
    ((adapt (plain ["a", "b", "a"] "a")).StringerOptions[(2 + 1) % 3]?).map answerOf
      = some (Value.str "a") ∧
    (Prompt stdEnv
        (labelled [Stringer.other 1 "a", Stringer.other 2 "b"] (some (Stringer.other 99 "b")))
        ((List.replicate 0 stdEnv.KeyArrowDown).map ReadResult.rune
          ++ ReadResult.rune 13 :: [])).outcome
      = Outcome.returned (Value.stringer (Stringer.other 99 "b")) none ∧
    ((labelled [Stringer.other 1 "a", Stringer.other 2 "b"]
        (some (Stringer.other 99 "b"))).StringerOptions[(1 + 0) % 2]?).map answerOf
      = some (Value.stringer (Stringer.other 2 "b")) := by
  decide

/-- C14, amended: for a non-empty option list of length L whose first frame
renders, a configured default whose label is the label of the item at index k,
the first such index, and n presses of Arrow-Down followed by a confirming
key, selectedIndex ends at `(k + n) mod L` and Prompt returns the item at that
index when `n > 0` and the default item itself when `n = 0`; with n presses of
Arrow-Up the index is `(k - n) mod L`.  The arrow codes differ from each other
and from the Enter code and do not end the loop. -/
theorem Prompt_arrow_presses (E : Env) (s : Select) (n : Nat) (c : Rune)
    (rest : List ReadResult) (d : Stringer) (k : Nat)
    (hne : (adapt s).StringerOptions ≠ [])
    (hR : E.Render (initialFrame (start s)) = none)
    (hc : E.confirms c)
    (hd : (adapt s).StringerDefault = some d)
    (hk : ((adapt s).StringerOptions[k]?).map Stringer.String = some d.String)
    (hfirst : ∀ j, j < k →
      ((adapt s).StringerOptions[j]?).map Stringer.String ≠ some d.String)
    (hdown : ¬ E.terminates E.KeyArrowDown) (hup : ¬ E.terminates E.KeyArrowUp)
    (hde : E.KeyArrowDown ≠ E.KeyEnter) (hue : E.KeyArrowUp ≠ E.KeyEnter)
    (hdu : E.KeyArrowDown ≠ E.KeyArrowUp) :
    (∃ item,
      index? (adapt s).StringerOptions
        (((k : Int) + (n : Int)) % ((adapt s).StringerOptions.length : Int)) = some item ∧
      (Prompt E s ((List.replicate n E.KeyArrowDown).map ReadResult.rune
          ++ ReadResult.rune c :: rest)).s.selectedIndex
        = ((k : Int) + (n : Int)) % ((adapt s).StringerOptions.length : Int) ∧
      (Prompt E s ((List.replicate n E.KeyArrowDown).map ReadResult.rune
          ++ ReadResult.rune c :: rest)).outcome
        = Outcome.returned (answerOf (if n = 0 then d else item)) none) ∧
    (∃ item,
      index? (adapt s).StringerOptions
        (((k : Int) - (n : Int)) % ((adapt s).StringerOptions.length : Int)) = some item ∧
      (Prompt E s ((List.replicate n E.KeyArrowUp).map ReadResult.rune
          ++ ReadResult.rune c :: rest)).s.selectedIndex
        = ((k : Int) - (n : Int)) % ((adapt s).StringerOptions.length : Int) ∧
      (Prompt E s ((List.replicate n E.KeyArrowUp).map ReadResult.rune
          ++ ReadResult.rune c :: rest)).outcome
        = Outcome.returned (answerOf (if n = 0 then d else item)) none) := by
  have hsel : (awaiting s).selectedIndex = (k : Int) :=
    initialSel_first (adapt s) d k hd hk hfirst
  have hlen : (awaiting s).StringerOptions = (adapt s).StringerOptions := rfl
  constructor
  · apply presses_answer E s n c rest d E.KeyArrowDown _ hne hR hc hd hdown (Or.inr rfl) hue hde
    rw [afterKeys_downs E n (awaiting s) (awaiting_inRange s hne) hde hdu, hsel, hlen]
  · apply presses_answer E s n c rest d E.KeyArrowUp _ hne hR hc hd hup (Or.inl rfl) hue hde
    rw [afterKeys_ups E n (awaiting s) (awaiting_inRange s hne) hue, hsel, hlen]

theorem Prompt_arrow_presses_witness :
    (∃ item,
      index? (adapt { plain ["a", "b", "c", "d", "e", "f", "g", "h", "i", "j"] "c" with
          PageSize := 5 }).StringerOptions
        ((((2 : Nat) : Int) + ((2 : Nat) : Int))
          % ((adapt { plain ["a", "b", "c", "d", "e", "f", "g", "h", "i", "j"] "c" with
              PageSize := 5 }).StringerOptions.length : Int)) = some item ∧
      (Prompt stdEnv
          { plain ["a", "b", "c", "d", "e", "f", "g", "h", "i", "j"] "c" with PageSize := 5 }
          ((List.replicate 2 stdEnv.KeyArrowDown).map ReadResult.rune
            ++ ReadResult.rune 13 :: [])).s.selectedIndex
        = (((2 : Nat) : Int) + ((2 : Nat) : Int))
          % ((adapt { plain ["a", "b", "c", "d", "e", "f", "g", "h", "i", "j"] "c" with
              PageSize := 5 }).StringerOptions.length : Int) ∧
      (Prompt stdEnv
          { plain ["a", "b", "c", "d", "e", "f", "g", "h", "i", "j"] "c" with PageSize := 5 }
          ((List.replicate 2 stdEnv.KeyArrowDown).map ReadResult.rune
            ++ ReadResult.rune 13 :: [])).outcome
        = Outcome.returned
            (answerOf (if 2 = 0 then Stringer.ptrOption { value := "c" } else item)) none) ∧
    (Prompt stdEnv
        { plain ["a", "b", "c", "d", "e", "f", "g", "h", "i", "j"] "c" with PageSize := 5 }
        ((List.replicate 2 stdEnv.KeyArrowDown).map ReadResult.rune
          ++ ReadResult.rune 13 :: [])).outcome
      = Outcome.returned (Value.str "e") none :=
  ⟨(Prompt_arrow_presses stdEnv
    { plain ["a", "b", "c", "d", "e", "f", "g", "h", "i", "j"] "c" with PageSize := 5 }
    2 13 [] (Stringer.ptrOption { value := "c" }) 2
    (by decide) rfl (by decide) rfl (by decide) (by decide) (by decide) (by decide)
    (by decide) (by decide) (by decide)).1,
   by decide⟩

/-- C15 (on `paginate` as modelled from the spec): for a page size between 1
and the length of the list and a selected index within the list, the page is
the labels of `items[start .. start + len)` for some `start` with
`start + len <= len(items)`, its length is `min(pageSize, len(items))`, the
visible index is `selectedIndex - start`, lies in `[0, pageSize)`, and the
page holds at that position the label of the selected item. -/
theorem paginate_window (pageSize : Int) (items : List Stringer) (selectedIndex : Int)
    (hp1 : 1 ≤ pageSize) (hp2 : pageSize ≤ (items.length : Int))
    (hs0 : 0 ≤ selectedIndex) (hs1 : selectedIndex < (items.length : Int)) :
    ∃ start : Nat,
      (paginate pageSize items selectedIndex).1
        = ((items.drop start).take pageSize.toNat).map Stringer.String ∧
      (paginate pageSize items selectedIndex).1.length = min pageSize.toNat items.length ∧
      start + (paginate pageSize items selectedIndex).1.length ≤ items.length ∧
      0 ≤ (paginate pageSize items selectedIndex).2 ∧
      (paginate pageSize items selectedIndex).2 < pageSize ∧
      (paginate pageSize items selectedIndex).2 = selectedIndex - (start : Int) ∧
      ∃ item, items[selectedIndex.toNat]? = some item ∧
        (paginate pageSize items selectedIndex).1[(paginate pageSize items selectedIndex).2.toNat]?
          = some item.String := by
  have hlt : selectedIndex.toNat < items.length := by omega
  have hitem : items[selectedIndex.toNat]? = some items[selectedIndex.toNat] :=
    List.getElem?_eq_getElem hlt
  by_cases hwhole : pageSize ≥ (items.length : Int)
  · have hpg : paginate pageSize items selectedIndex
        = (items.map Stringer.String, selectedIndex) := by
      unfold paginate
      simp [hwhole]
    have htake : List.take pageSize.toNat items = items :=
      List.take_of_length_le (by omega)
    refine ⟨0, ?_, ?_, ?_, ?_, ?_, ?_, items[selectedIndex.toNat], hitem, ?_⟩
    · rw [hpg, List.drop_zero, htake]
    · rw [hpg]
      simp only [List.length_map]
      omega
    · rw [hpg]
      simp only [List.length_map]
      omega
    · rw [hpg]; exact hs0
    · rw [hpg]
      show selectedIndex < pageSize
      omega
    · rw [hpg]; simp
    · rw [hpg]
      simp only [List.getElem?_map, hitem, Option.map_some']
  · have hcond : ¬ (pageSize ≤ 0 ∨ pageSize ≥ (items.length : Int)) := by omega
    have hpg : paginate pageSize items selectedIndex
        = (((items.drop
              (max 0 (min (selectedIndex - pageSize / 2)
                ((items.length : Int) - pageSize))).toNat).take pageSize.toNat).map
              Stringer.String,
            selectedIndex
              - max 0 (min (selectedIndex - pageSize / 2) ((items.length : Int) - pageSize))) := by
      unfold paginate
      simp only [hcond, if_false]
    generalize hst : max 0 (min (selectedIndex - pageSize / 2)
      ((items.length : Int) - pageSize)) = st at hpg
    have b0 : 0 ≤ st := by omega
    have b1 : st ≤ (items.length : Int) - pageSize := by omega
    have b2 : st ≤ selectedIndex := by omega
    have b3 : selectedIndex - st < pageSize := by omega
    refine ⟨st.toNat, ?_, ?_, ?_, ?_, ?_, ?_, items[selectedIndex.toNat], hitem, ?_⟩
    · rw [hpg]
    · rw [hpg]
      simp only [List.length_map, List.length_take, List.length_drop]
      omega
    · rw [hpg]
      simp only [List.length_map, List.length_take, List.length_drop]
      omega
    · rw [hpg]
      show 0 ≤ selectedIndex - st
      omega
    · rw [hpg]
      show selectedIndex - st < pageSize
      exact b3
    · rw [hpg]
      show selectedIndex - st = selectedIndex - ((st.toNat : Nat) : Int)
      omega
    · rw [hpg]
      show (List.map Stringer.String
        (List.take pageSize.toNat (List.drop st.toNat items)))[(selectedIndex - st).toNat]?
          = some items[selectedIndex.toNat].String
      have hv : (selectedIndex - st).toNat < pageSize.toNat := by omega
      have hidx : st.toNat + (selectedIndex - st).toNat = selectedIndex.toNat := by omega
      rw [List.getElem?_map, List.getElem?_take_of_lt hv, List.getElem?_drop, hidx, hitem]
      rfl

theorem paginate_window_witness :
    ∃ start : Nat,
      (paginate 3 ((plain ["a", "b", "c", "d", "e", "f", "g", "h", "i", "j"] "").Options.map
          fun o => Stringer.ptrOption { value := o }) 9).1
        = ((((plain ["a", "b", "c", "d", "e", "f", "g", "h", "i", "j"] "").Options.map
            fun o => Stringer.ptrOption { value := o }).drop start).take
              (3 : Int).toNat).map Stringer.String ∧
      (paginate 3 ((plain ["a", "b", "c", "d", "e", "f", "g", "h", "i", "j"] "").Options.map
          fun o => Stringer.ptrOption { value := o }) 9).1 = ["h", "i", "j"] ∧
      (paginate 3 ((plain ["a", "b", "c", "d", "e", "f", "g", "h", "i", "j"] "").Options.map
          fun o => Stringer.ptrOption { value := o }) 9).2 = 2 := by
  obtain ⟨start, h, -⟩ := paginate_window 3
    ((plain ["a", "b", "c", "d", "e", "f", "g", "h", "i", "j"] "").Options.map
      fun o => Stringer.ptrOption { value := o }) 9
    (by decide) (by decide) (by decide) (by decide)
  exact ⟨start, h, by decide, by decide⟩

theorem Prompt_inRange (E : Env) (s : Select) (reads : List ReadResult)
    (hne : (adapt s).StringerOptions ≠ []) : InRange (Prompt E s reads).s := by
  cases hR : E.Render (initialFrame (start s)) with
  | some err =>
    rw [(Prompt_render_fails E s reads err hne hR).2.1]
    exact initialSel_inRange (adapt s) hne
  | none =>
    rw [(Prompt_loop E s reads hne hR).2.1]
    exact (readLoop_safe E reads (awaiting s) (awaiting_inRange s hne)).2.1

theorem Prompt_never_panics (E : Env) (s : Select) (reads : List ReadResult) :
    (Prompt E s reads).outcome ≠ Outcome.panicked := by
  rcases Prompt_outcomes E s reads with ⟨h, -⟩ | ⟨v, -, h⟩ | ⟨e, h⟩ <;> rw [h] <;> simp

theorem Prompt_awaiting_keys (E : Env) (s : Select) (pre : List Rune)
    (hne : (adapt s).StringerOptions ≠ [])
    (hR : E.Render (initialFrame (start s)) = none)
    (hpre : ∀ k ∈ pre, ¬ E.terminates k) :
    (Prompt E s (pre.map ReadResult.rune)).s = afterKeys E (awaiting s) pre := by
  have h := (readLoop_keys E pre (awaiting s) (awaiting_inRange s hne) hpre []).2.1
  rw [List.append_nil] at h
  rw [(Prompt_loop E s _ hne hR).2.1, h]
  rfl

theorem afterKeys_useDefault_iff (E : Env) (pre : List Rune) (s : Select)
    (hs : s.useDefault = true)
    (hue : E.KeyArrowUp ≠ E.KeyEnter) (hde : E.KeyArrowDown ≠ E.KeyEnter) :
    (afterKeys E s pre).useDefault = true
      ↔ ∀ k ∈ pre, k ≠ E.KeyArrowUp ∧ k ≠ E.KeyArrowDown := by
  constructor
  · intro h k hk
    by_contra hcon
    have harrow : k = E.KeyArrowUp ∨ k = E.KeyArrowDown := by tauto
    rw [afterKeys_arrow E pre s hue hde ⟨k, hk, harrow⟩] at h
    cases h
  · intro h
    rw [(afterKeys_no_arrow E pre s h).2]
    exact hs

theorem OnChange_showingHelp_sticky (E : Env) (s : Select) (l : List Char) (p : Int)
    (k : Rune) (h : s.showingHelp = true) : (OnChange E s l p k).s.showingHelp = true := by
  unfold OnChange
  split_ifs <;> simp [h] <;> split_ifs <;> simp [h]

theorem afterKeys_showingHelp_sticky (E : Env) (pre : List Rune) (s : Select)
    (h : s.showingHelp = true) : (afterKeys E s pre).showingHelp = true := by
  induction pre generalizing s with
  | nil => exact h
  | cons k pre ih => exact ih _ (OnChange_showingHelp_sticky E s [] 0 k h)

theorem OnChange_idle (E : Env) (s : Select) (l : List Char) (p : Int) (k : Rune)
    (hu : k ≠ E.KeyArrowUp) (hd : k ≠ E.KeyArrowDown)
    (hh : ¬ (k = E.HelpInputRune ∧ s.Help ≠ "")) : (OnChange E s l p k).s = s := by
  unfold OnChange
  split_ifs <;> rfl

/-- C16: for a non-empty option list the selected index is a valid index of
the list after the initial resolution of Prompt, and OnChange with any key
keeps it valid and returns without an out-of-range access; so whatever is
read, the prompt value Prompt holds has a valid selectedIndex and Prompt never
panics. -/
theorem selectedIndex_in_range (E : Env) (s : Select)
    (hne : (adapt s).StringerOptions ≠ []) :
    (0 ≤ (start s).selectedIndex ∧
      (start s).selectedIndex < ((start s).StringerOptions.length : Int)) ∧
    (∀ (st : Select) (line : List Char) (pos : Int) (key : Rune),
      0 ≤ st.selectedIndex ∧ st.selectedIndex < (st.StringerOptions.length : Int) →
      (0 ≤ (OnChange E st line pos key).s.selectedIndex ∧
        (OnChange E st line pos key).s.selectedIndex
          < ((OnChange E st line pos key).s.StringerOptions.length : Int)) ∧
      (OnChange E st line pos key).ret ≠ none) ∧
    (∀ reads : List ReadResult,
      (0 ≤ (Prompt E s reads).s.selectedIndex ∧
        (Prompt E s reads).s.selectedIndex
          < ((Prompt E s reads).s.StringerOptions.length : Int)) ∧
      (Prompt E s reads).outcome ≠ Outcome.panicked) := by
  refine ⟨initialSel_inRange (adapt s) hne, ?_, ?_⟩
  · intro st line pos key hst
    obtain ⟨r, hr⟩ := OnChange_returns E st line pos key hst
    refine ⟨OnChange_inRange E st line pos key hst, ?_⟩
    rw [hr]
    exact Option.some_ne_none r
  · intro reads
    exact ⟨Prompt_inRange E s reads hne, Prompt_never_panics E s reads⟩

theorem selectedIndex_in_range_witness :
    (0 ≤ (Prompt stdEnv (plain ["a", "b", "c"] "c")
        [ReadResult.rune 14, ReadResult.rune 14, ReadResult.rune 16]).s.selectedIndex ∧
      (Prompt stdEnv (plain ["a", "b", "c"] "c")
        [ReadResult.rune 14, ReadResult.rune 14, ReadResult.rune 16]).s.selectedIndex
        < ((Prompt stdEnv (plain ["a", "b", "c"] "c")
          [ReadResult.rune 14, ReadResult.rune 14,
            ReadResult.rune 16]).s.StringerOptions.length : Int)) ∧
    (Prompt stdEnv (plain ["a", "b", "c"] "c")
        [ReadResult.rune 14, ReadResult.rune 14, ReadResult.rune 16]).outcome
      ≠ Outcome.panicked :=
  (selectedIndex_in_range stdEnv (plain ["a", "b", "c"] "c") (by decide)).2.2
    [ReadResult.rune 14, ReadResult.rune 14, ReadResult.rune 16]

/-- C17: Prompt enters its key loop with useDefault true; with the arrow codes
different from the Enter code, after any keys that do not end the loop
useDefault is true exactly when none of them was Arrow-Up or Arrow-Down:
OnChange with an arrow key sets it false, with any other key leaves it as it
is, and never turns false into true. -/
theorem useDefault_tracks_arrows (E : Env) (s : Select) (pre : List Rune)
    (hne : (adapt s).StringerOptions ≠ [])
    (hR : E.Render (initialFrame (start s)) = none)
    (hpre : ∀ k ∈ pre, ¬ E.terminates k)
    (hue : E.KeyArrowUp ≠ E.KeyEnter) (hde : E.KeyArrowDown ≠ E.KeyEnter) :
    (Prompt E s []).s.useDefault = true ∧
    ((Prompt E s (pre.map ReadResult.rune)).s.useDefault = true
      ↔ ∀ k ∈ pre, k ≠ E.KeyArrowUp ∧ k ≠ E.KeyArrowDown) ∧
    (∀ (st : Select) (line : List Char) (pos : Int) (key : Rune),
      (key = E.KeyArrowUp ∨ key = E.KeyArrowDown →
        (OnChange E st line pos key).s.useDefault = false) ∧
      (key ≠ E.KeyArrowUp → key ≠ E.KeyArrowDown →
        (OnChange E st line pos key).s.useDefault = st.useDefault) ∧
      (st.useDefault = false → (OnChange E st line pos key).s.useDefault = false)) := by
  refine ⟨?_, ?_, ?_⟩
  · have h := Prompt_awaiting_keys E s [] hne hR (by simp)
    rw [List.map_nil] at h
    rw [h]
    rfl
  · rw [Prompt_awaiting_keys E s pre hne hR hpre]
    exact afterKeys_useDefault_iff E pre (awaiting s) rfl hue hde
  · intro st line pos key
    refine ⟨?_, ?_, ?_⟩
    · intro harrow
      apply OnChange_arrow E st line pos key harrow
      rcases harrow with h | h <;> rw [h]
      · exact hue
      · exact hde
    · intro h1 h2
      exact (OnChange_no_arrow E st line pos key h1 h2).2
    · exact OnChange_useDefault_false E st line pos key

theorem useDefault_tracks_arrows_witness :
    ((Prompt stdEnv (plain ["a", "b", "c"] "c") ([63, 14, 97].map ReadResult.rune)).s.useDefault
        = true
      ↔ ∀ k ∈ ([63, 14, 97] : List Rune), k ≠ stdEnv.KeyArrowUp ∧ k ≠ stdEnv.KeyArrowDown) ∧
    (Prompt stdEnv (plain ["a", "b", "c"] "c") ([63, 14, 97].map ReadResult.rune)).s.useDefault
      = false :=
  ⟨(useDefault_tracks_arrows stdEnv (plain ["a", "b", "c"] "c") [63, 14, 97]
      (by decide) rfl (by decide) (by decide) (by decide)).2.1,
   by decide⟩

/-- C18: with non-empty help text and a help rune different from the Enter and
arrow codes, OnChange with the help rune sets showingHelp to true and leaves
selectedIndex and useDefault as they are; once showingHelp is true it is true
after OnChange with any key, hence after any further keys. -/
theorem OnChange_help (E : Env) (s : Select) (line : List Char) (pos : Int)
    (hhelp : s.Help ≠ "")
    (he : E.HelpInputRune ≠ E.KeyEnter) (hu : E.HelpInputRune ≠ E.KeyArrowUp)
    (hd : E.HelpInputRune ≠ E.KeyArrowDown) :
    (OnChange E s line pos E.HelpInputRune).s.showingHelp = true ∧
    (OnChange E s line pos E.HelpInputRune).s.selectedIndex = s.selectedIndex ∧
    (OnChange E s line pos E.HelpInputRune).s.useDefault = s.useDefault ∧
    (∀ (st : Select) (l : List Char) (p : Int) (key : Rune),
      st.showingHelp = true → (OnChange E st l p key).s.showingHelp = true) ∧
    (∀ keys : List Rune,
      (afterKeys E (OnChange E s line pos E.HelpInputRune).s keys).showingHelp = true) := by
  have h1 : (OnChange E s line pos E.HelpInputRune).s.showingHelp = true := by
    unfold OnChange
    simp [he, hu, hd, hhelp]
  obtain ⟨h2, h3⟩ := OnChange_no_arrow E s line pos E.HelpInputRune hu hd
  exact ⟨h1, h2, h3, fun st l p key => OnChange_showingHelp_sticky E st l p key,
    fun keys => afterKeys_showingHelp_sticky E keys _ h1⟩

theorem OnChange_help_witness :
    (OnChange stdEnv { plain ["a", "b"] "" with Help := "pick a letter" } [] 0
        stdEnv.HelpInputRune).s.showingHelp = true ∧
    (afterKeys stdEnv
        (OnChange stdEnv { plain ["a", "b"] "" with Help := "pick a letter" } [] 0
          stdEnv.HelpInputRune).s [14, 97, 16]).showingHelp = true :=
  ⟨(OnChange_help stdEnv { plain ["a", "b"] "" with Help := "pick a letter" } [] 0
      (by decide) (by decide) (by decide) (by decide)).1,
   (OnChange_help stdEnv { plain ["a", "b"] "" with Help := "pick a letter" } [] 0
      (by decide) (by decide) (by decide) (by decide)).2.2.2.2 [14, 97, 16]⟩

/-- C19: OnChange with a key that is neither Arrow-Up nor Arrow-Down nor the
help rune with help text configured leaves the prompt value as it is, so
selectedIndex, useDefault and showingHelp are unchanged. -/
theorem OnChange_other_key (E : Env) (s : Select) (line : List Char) (pos : Int) (key : Rune)
    (hu : key ≠ E.KeyArrowUp) (hd : key ≠ E.KeyArrowDown)
    (hh : ¬ (key = E.HelpInputRune ∧ s.Help ≠ "")) :
    (OnChange E s line pos key).s.selectedIndex = s.selectedIndex ∧
    (OnChange E s line pos key).s.useDefault = s.useDefault ∧
    (OnChange E s line pos key).s.showingHelp = s.showingHelp ∧
    (OnChange E s line pos key).s = s := by
  have h := OnChange_idle E s line pos key hu hd hh
  rw [h]
  exact ⟨rfl, rfl, rfl, rfl⟩

theorem OnChange_other_key_witness :
    (OnChange stdEnv (plain ["a", "b"] "") [] 0 63).s.selectedIndex
      = (plain ["a", "b"] "").selectedIndex ∧
    (OnChange stdEnv (plain ["a", "b"] "") [] 0 63).s.useDefault
      = (plain ["a", "b"] "").useDefault ∧
    (OnChange stdEnv (plain ["a", "b"] "") [] 0 63).s.showingHelp
      = (plain ["a", "b"] "").showingHelp ∧
    (OnChange stdEnv (plain ["a", "b"] "") [] 0 63).s = plain ["a", "b"] "" :=
  OnChange_other_key stdEnv (plain ["a", "b"] "") [] 0 63
    (by decide) (by decide) (by decide)

theorem adapt_leftOver (s : Select) (i : Int) (u h : Bool) :
    adapt (leftOver s i u h) = leftOver (adapt s) i u h := by
  unfold adapt leftOver
  split_ifs <;> rfl

theorem initialSel_leftOver (s : Select) (i : Int) (u h : Bool) :
    initialSel (leftOver s i u h) = initialSel s := rfl

theorem awaiting_leftOver (s : Select) (i : Int) (u h : Bool) :
    awaiting (leftOver s i u h) = { awaiting s with showingHelp := h } := by
  unfold awaiting start
  simp only [adapt_leftOver, initialSel_leftOver]
  rfl

theorem OnChange_modulo_help (E : Env) (st : Select) (b : Bool) (l : List Char) (p : Int)
    (k : Rune) :
    (OnChange E { st with showingHelp := b } l p k).ret = (OnChange E st l p k).ret ∧
    ∃ b2, (OnChange E { st with showingHelp := b } l p k).s
      = { (OnChange E st l p k).s with showingHelp := b2 } := by
  unfold OnChange
  split_ifs
  · exact ⟨rfl, b, rfl⟩
  · simp only
    split_ifs <;> exact ⟨rfl, b, rfl⟩
  · simp only
    split_ifs <;> exact ⟨rfl, b, rfl⟩
  · exact ⟨rfl, true, rfl⟩
  · exact ⟨rfl, b, rfl⟩

theorem readLoop_help_congr (E : Env) (reads : List ReadResult) (st : Select) (b : Bool) :
    (readLoop E { st with showingHelp := b } reads).exit = (readLoop E st reads).exit ∧
    ∃ b2, (readLoop E { st with showingHelp := b } reads).s
      = { (readLoop E st reads).s with showingHelp := b2 } := by
  induction reads generalizing st b with
  | nil => exact ⟨rfl, b, rfl⟩
  | cons rd reads ih =>
    cases rd with
    | err e => exact ⟨rfl, b, rfl⟩
    | rune r =>
      obtain ⟨hret, b2, hs2⟩ := OnChange_modulo_help E st b [] 0 r
      rw [readLoop, readLoop]
      split_ifs
      · exact ⟨rfl, b, rfl⟩
      · exact ⟨rfl, b, rfl⟩
      · exact ⟨rfl, b, rfl⟩
      · dsimp only
        rw [hret]
        cases hr : (OnChange E st [] 0 r).ret with
        | none => exact ⟨rfl, b2, hs2⟩
        | some v =>
          dsimp only
          rw [hs2]
          exact ih (OnChange E st [] 0 r).s b2

theorem chooseVal_help (st : Select) (b : Bool) :
    chooseVal { st with showingHelp := b } = chooseVal st := rfl

theorem adapt_showingHelp (s : Select) : (adapt s).showingHelp = s.showingHelp := by
  unfold adapt
  split_ifs <;> rfl

theorem initialFrame_leftOver (s : Select) (i : Int) (u h : Bool) :
    (initialFrame (start (leftOver s i u h))).exported = (initialFrame (start s)).exported := by
  unfold start
  simp only [adapt_leftOver, initialSel_leftOver]
  rfl

/-- C20, as stated, fails for showingHelp: after a run in which the help rune
was pressed, the prompt value holds showingHelp = true; a new run on it starts
its key loop with showingHelp = true, and what it renders differs from what a
run on the same configuration with showingHelp = false renders. -/
theorem showingHelp_survives_runs :
    (Prompt stdEnv { plain ["a", "b"] "" with Help := "pick a letter" }
        [ReadResult.rune 63, ReadResult.rune 13]).s.showingHelp = true ∧
    (Prompt stdEnv
        (Prompt stdEnv { plain ["a", "b"] "" with Help := "pick a letter" }
          [ReadResult.rune 63, ReadResult.rune 13]).s []).s.showingHelp = true ∧
    (Prompt stdEnv
        (Prompt stdEnv { plain ["a", "b"] "" with Help := "pick a letter" }
          [ReadResult.rune 63, ReadResult.rune 13]).s
        [ReadResult.rune 14, ReadResult.rune 13]).events.map Event.exported
      ≠ (Prompt stdEnv
        { (Prompt stdEnv { plain ["a", "b"] "" with Help := "pick a letter" }
          [ReadResult.rune 63, ReadResult.rune 13]).s with showingHelp := false }
        [ReadResult.rune 14, ReadResult.rune 13]).events.map Event.exported := by
  decide

/-- C20, amended: whatever selectedIndex, useDefault and showingHelp a prompt
value was left with, a Prompt run on it (non-empty option list, first frame
rendering) starts its key loop with selectedIndex equal to the default
resolution and useDefault = true, and with showingHelp as it was left; on the
same read results it returns the same answer and error as a run on the same
configuration with any other left-over state, and when showingHelp was left
the same it makes the same calls with the same template-visible frames. -/
theorem Prompt_left_over_state (E : Env) (s : Select) (i : Int) (u h : Bool)
    (hne : (adapt s).StringerOptions ≠ [])
    (hRs : E.Render (initialFrame (start s)) = none)
    (hRt : E.Render (initialFrame (start (leftOver s i u h))) = none) :
    ((Prompt E (leftOver s i u h) []).s.selectedIndex = initialSel (adapt s) ∧
      (Prompt E (leftOver s i u h) []).s.useDefault = true ∧
      (Prompt E (leftOver s i u h) []).s.showingHelp = h) ∧
    (∀ reads : List ReadResult,
      (Prompt E (leftOver s i u h) reads).outcome = (Prompt E s reads).outcome) ∧
    (h = s.showingHelp → ∀ reads : List ReadResult,
      (Prompt E (leftOver s i u h) reads).events.map Event.exported
        = (Prompt E s reads).events.map Event.exported) := by
  have hnet : (adapt (leftOver s i u h)).StringerOptions ≠ [] := by
    rw [adapt_leftOver]; exact hne
  refine ⟨?_, ?_, ?_⟩
  · have h0 := Prompt_awaiting_keys E (leftOver s i u h) [] hnet hRt (by simp)
    rw [List.map_nil] at h0
    rw [h0]
    have h1 : afterKeys E (awaiting (leftOver s i u h)) [] = awaiting (leftOver s i u h) := rfl
    rw [h1, awaiting_leftOver]
    exact ⟨rfl, rfl, rfl⟩
  · intro reads
    obtain ⟨a1, -, -, -⟩ := Prompt_loop E (leftOver s i u h) reads hnet hRt
    obtain ⟨b1, -, -, -⟩ := Prompt_loop E s reads hne hRs
    obtain ⟨c1, b2, c2⟩ := readLoop_help_congr E reads (awaiting s) h
    rw [a1, b1, awaiting_leftOver, c1, c2, chooseVal_help]
  · intro hh reads
    obtain ⟨-, -, -, a4⟩ := Prompt_loop E (leftOver s i u h) reads hnet hRt
    obtain ⟨-, -, -, b4⟩ := Prompt_loop E s reads hne hRs
    have haw : awaiting (leftOver s i u h) = awaiting s := by
      rw [awaiting_leftOver, hh]
      have : (awaiting s).showingHelp = s.showingHelp := adapt_showingHelp s
      rw [← this]
    rw [a4, b4, haw]
    simp only [List.map_append, List.map_cons, List.map_nil, Event.exported,
      initialFrame_leftOver]

theorem Prompt_left_over_state_witness :
    (Prompt stdEnv (leftOver (plain ["a", "b", "c"] "b") 2 false true) []).s.selectedIndex
        = initialSel (adapt (plain ["a", "b", "c"] "b")) ∧
    (Prompt stdEnv (leftOver (plain ["a", "b", "c"] "b") 2 false true) []).s.useDefault = true ∧
    (Prompt stdEnv (leftOver (plain ["a", "b", "c"] "b") 2 false true) []).s.showingHelp
      = true :=
  (Prompt_left_over_state stdEnv (plain ["a", "b", "c"] "b") 2 false true
    (by decide) rfl rfl).1

end Survey
